import Mathlib

/-!
Verification of the vcard_parser repository (RFC 6350 vCard 4.0 parser).

This file contains a shallow embedding of the parts of the code relevant to
the claims under review:

* the escaping codec (src/parse/encoding.rs),
* the nom-based grammar (src/parse/{delimiters,value,parameter,property,vcard}.rs),
* the error type (src/error.rs),
* the property / parameter / value model and the RFC 7.1 matching algorithm
  (src/vcard/property/mod.rs, src/vcard/parameter/*.rs, src/vcard/value/*.rs),
* the Vcard aggregate operations (src/vcard/mod.rs).

Rust strings are embedded as `List Char` (all inputs in the claims are ASCII,
so bytes and chars coincide); machine integers (`i32`) are embedded as `Int`
with explicit range checks where the code performs them.
-/

namespace VcardParser

/-! ## Escaping codec (src/parse/encoding.rs)

Constants from src/constants.rs (`Encoding`):
`ESCAPED_BACKSLASH` is two backslashes, `ESCAPED_COMMA` is backslash comma,
`ESCAPED_LF` is backslash backslash `n` (three characters), and similarly
`ESCAPED_SEMICOLON` and `ESCAPED_TAB`. -/

/-- One step of `escape` (the body of the `for char in str.chars()` loop in
`escape`, src/parse/encoding.rs lines 6-21). -/
def escapeChar (c : Char) : List Char :=
  if c = '\\' then ['\\', '\\']
  else if c = ',' then ['\\', ',']
  else if c = '\n' then ['\\', '\\', 'n']
  else if c = ';' then ['\\', ';']
  else if c = '\t' then ['\\', '\\', 't']
  else [c]

/-- `escape` from src/parse/encoding.rs lines 6-21. -/
def escape (s : List Char) : List Char :=
  (s.map escapeChar).flatten

/-- `unescape` from src/parse/encoding.rs lines 24-52.  The Rust code walks a
peekable char iterator; on a backslash it consumes the next char and matches
it against backslash (then peeks for `n`/`t`), comma, a literal line feed and
semicolon; any other follower falls into the `_ => continue` arm which drops
both the backslash and the follower (a trailing backslash is likewise
dropped, and a double backslash at end of input pushes a single backslash). -/
def unescape : List Char → List Char
  | [] => []
  | c :: tail =>
    if c = '\\' then
      match tail with
      | [] => []
      | d :: tail2 =>
        if d = '\\' then
          match tail2 with
          | [] => ['\\']
          | e :: tail3 =>
            if e = 'n' then '\n' :: unescape tail3
            else if e = 't' then '\t' :: unescape tail3
            else '\\' :: unescape (e :: tail3)
        else if d = ',' then ',' :: unescape tail2
        else if d = '\n' then '\n' :: unescape tail2
        else if d = ';' then ';' :: unescape tail2
        else unescape tail2
    else c :: unescape tail

/-- A string in which no backslash is immediately followed by the letter `n`
or the letter `t`.  On such strings the escape codec round-trips (see
`unescape_escape`); the two excluded digraphs collide with the wire forms of
line feed and tab produced by `escape`. -/
def noBadEscape : List Char → Bool
  | [] => true
  | c :: tail =>
    if c = '\\' then
      match tail with
      | [] => true
      | d :: tail2 =>
        if d = 'n' ∨ d = 't' then false else noBadEscape (d :: tail2)
    else noBadEscape tail

lemma escape_cons (c : Char) (l : List Char) :
    escape (c :: l) = escapeChar c ++ escape l := by
  simp [escape]

lemma unescape_cons_ne (c : Char) (l : List Char) (h : c ≠ '\\') :
    unescape (c :: l) = c :: unescape l := by
  rw [unescape.eq_def]
  simp [h]

lemma unescape_bsbs_ne (e : Char) (l : List Char)
    (hn : e ≠ 'n') (ht : e ≠ 't') :
    unescape ('\\' :: '\\' :: e :: l) = '\\' :: unescape (e :: l) := by
  rw [unescape.eq_def]
  simp [hn, ht]

lemma unescape_bs_comma (l : List Char) :
    unescape ('\\' :: ',' :: l) = ',' :: unescape l := by
  rw [unescape.eq_def]
  simp

lemma unescape_bs_semi (l : List Char) :
    unescape ('\\' :: ';' :: l) = ';' :: unescape l := by
  rw [unescape.eq_def]
  simp

lemma unescape_bsbs_n (l : List Char) :
    unescape ('\\' :: '\\' :: 'n' :: l) = '\n' :: unescape l := by
  rw [unescape.eq_def]
  simp

lemma unescape_bsbs_t (l : List Char) :
    unescape ('\\' :: '\\' :: 't' :: l) = '\t' :: unescape l := by
  rw [unescape.eq_def]
  simp

lemma noBadEscape_bs_cons (d : Char) (l : List Char)
    (h : noBadEscape ('\\' :: d :: l) = true) :
    ¬(d = 'n' ∨ d = 't') ∧ noBadEscape (d :: l) = true := by
  rw [noBadEscape.eq_def] at h
  by_cases hd : d = 'n' ∨ d = 't'
  · simp only [if_pos hd] at h
    simp at h
  · simp only [if_neg hd] at h
    simp at h
    exact ⟨hd, h⟩

lemma noBadEscape_cons_ne (c : Char) (l : List Char) (hc : c ≠ '\\')
    (h : noBadEscape (c :: l) = true) : noBadEscape l = true := by
  rw [noBadEscape.eq_def] at h
  simp [hc] at h
  exact h

lemma noBadEscape_tail (c : Char) (tail : List Char)
    (h : noBadEscape (c :: tail) = true) : noBadEscape tail = true := by
  by_cases hb : c = '\\'
  · subst hb
    cases tail with
    | nil => rfl
    | cons d tail2 => exact (noBadEscape_bs_cons d tail2 h).2
  · exact noBadEscape_cons_ne c tail hb h

lemma escapeChar_append_head (d : Char) (l : List Char)
    (hn : d ≠ 'n') (ht : d ≠ 't') :
    ∃ e t2, escapeChar d ++ l = e :: t2 ∧ e ≠ 'n' ∧ e ≠ 't' := by
  unfold escapeChar
  split_ifs <;>
    first
      | exact ⟨'\\', _, rfl, by decide, by decide⟩
      | exact ⟨d, l, rfl, hn, ht⟩

lemma unescape_escape (s : List Char) (h : noBadEscape s = true) :
    unescape (escape s) = s := by
  induction s with
  | nil => rfl
  | cons c rest ih =>
    have hrest : noBadEscape rest = true := noBadEscape_tail c rest h
    rw [escape_cons]
    by_cases hb : c = '\\'
    · subst hb
      rw [show escapeChar '\\' = ['\\', '\\'] from rfl]
      cases rest with
      | nil => rfl
      | cons d rest2 =>
        have hd := (noBadEscape_bs_cons d rest2 h).1
        obtain ⟨e, t2, heq, hen, het⟩ :=
          escapeChar_append_head d (escape rest2)
            (fun hx => hd (Or.inl hx)) (fun hx => hd (Or.inr hx))
        have heq2 : escape (d :: rest2) = e :: t2 := by
          rw [escape_cons]; exact heq
        calc unescape (['\\', '\\'] ++ escape (d :: rest2))
            = unescape ('\\' :: '\\' :: e :: t2) := by rw [heq2]; rfl
          _ = '\\' :: unescape (e :: t2) := unescape_bsbs_ne e t2 hen het
          _ = '\\' :: unescape (escape (d :: rest2)) := by rw [heq2]
          _ = '\\' :: d :: rest2 := by rw [ih hrest]
    · by_cases hcm : c = ','
      · subst hcm
        rw [show escapeChar ',' = ['\\', ','] from rfl]
        calc unescape (['\\', ','] ++ escape rest)
            = unescape ('\\' :: ',' :: escape rest) := rfl
          _ = ',' :: unescape (escape rest) := unescape_bs_comma _
          _ = ',' :: rest := by rw [ih hrest]
      · by_cases hlf : c = '\n'
        · subst hlf
          rw [show escapeChar '\n' = ['\\', '\\', 'n'] from rfl]
          calc unescape (['\\', '\\', 'n'] ++ escape rest)
              = unescape ('\\' :: '\\' :: 'n' :: escape rest) := rfl
            _ = '\n' :: unescape (escape rest) := unescape_bsbs_n _
            _ = '\n' :: rest := by rw [ih hrest]
        · by_cases hsc : c = ';'
          · subst hsc
            rw [show escapeChar ';' = ['\\', ';'] from rfl]
            calc unescape (['\\', ';'] ++ escape rest)
                = unescape ('\\' :: ';' :: escape rest) := rfl
              _ = ';' :: unescape (escape rest) := unescape_bs_semi _
              _ = ';' :: rest := by rw [ih hrest]
          · by_cases htb : c = '\t'
            · subst htb
              rw [show escapeChar '\t' = ['\\', '\\', 't'] from rfl]
              calc unescape (['\\', '\\', 't'] ++ escape rest)
                  = unescape ('\\' :: '\\' :: 't' :: escape rest) := rfl
                _ = '\t' :: unescape (escape rest) := unescape_bsbs_t _
                _ = '\t' :: rest := by rw [ih hrest]
            · rw [show escapeChar c = [c] from by
                simp [escapeChar, hb, hcm, hlf, hsc, htb]]
              calc unescape ([c] ++ escape rest)
                  = unescape (c :: escape rest) := rfl
                _ = c :: unescape (escape rest) := unescape_cons_ne c _ hb
                _ = c :: rest := by rw [ih hrest]

/-- C4 counterexample: the claim asserts `unescape (escape s) = s` for every
string over printable ASCII plus the reserved characters, but for the
two-character string backslash-`n` (both printable ASCII), `escape` produces
backslash backslash `n`, which `unescape` reads back as a line feed. -/
theorem spec_C4_counterexample :
    unescape (escape ['\\', 'n']) = ['\n'] ∧
      unescape (escape ['\\', 'n']) ≠ ['\\', 'n'] := by
  decide

/-- C4 (amended): `unescape (escape s) = s` holds for every string in which
no backslash is immediately followed by the letter `n` or the letter `t`
(the two digraphs whose escaped forms collide with the escaped line feed and
tab); on the full printable alphabet the round trip fails. -/
theorem spec_C4_escape_unescape_roundtrip (s : List Char)
    (h : noBadEscape s = true) : unescape (escape s) = s :=
  unescape_escape s h

/-- Witness for `spec_C4_escape_unescape_roundtrip` at a concrete string
containing every reserved character. -/
theorem spec_C4_witness :
    noBadEscape ['a', '\\', ',', ';', '\n', '\t'] = true ∧
      unescape (escape ['a', '\\', ',', ';', '\n', '\t']) =
        ['a', '\\', ',', ';', '\n', '\t'] :=
  ⟨by decide, spec_C4_escape_unescape_roundtrip _ (by decide)⟩

/-- C5 counterexample: the claim asserts a lone backslash not followed by a
recognized escape character is passed through literally, but `unescape`
drops both the backslash and its follower (here the input backslash-`x`
unescapes to the empty string, not to backslash-`x`). -/
theorem spec_C5_counterexample :
    unescape ['\\', 'x'] = [] ∧ unescape ['\\', 'x'] ≠ ['\\', 'x'] := by
  decide

/-- C5 (amended): a backslash followed by a character other than backslash,
comma, line feed or semicolon is not passed through: `unescape` drops both
the backslash and the follower (the `_ => continue` arm), and a trailing
lone backslash is dropped as well. -/
theorem spec_C5_unescape_drops :
    (∀ c l, c ≠ '\\' → c ≠ ',' → c ≠ '\n' → c ≠ ';' →
      unescape ('\\' :: c :: l) = unescape l) ∧ unescape ['\\'] = [] := by
  refine ⟨fun c l h1 h2 h3 h4 => ?_, rfl⟩
  rw [unescape.eq_def]
  simp [h1, h2, h3, h4]

/-- Witness for `spec_C5_unescape_drops`: backslash-`x`-`y` unescapes the
same as `y` alone. -/
theorem spec_C5_witness :
    unescape ['\\', 'x', 'y'] = unescape ['y'] :=
  spec_C5_unescape_drops.1 'x' ['y'] (by decide) (by decide) (by decide)
    (by decide)

/-! ## Error type (src/error.rs) -/

/-- `VcardError` from src/error.rs lines 7-31.  `ParseError` carries the nom
breadcrumb stack: `from_error_kind` stores the remaining input as the first
element and each `context` combinator pushes its rule name (`add_context`,
src/error.rs lines 88-97). -/
inductive VcardError
  | ConversionFailure
  | ParseError (breadcrumbs : List String)
  | ParameterTypeNotAllowed (parameterName propertyName : String)
  | PropertyFnMissing
  | PropertyFnRequired
  | PropertySetError (propertyName : String)
  | ValueInvalid (propertyValue propertyName : String)
  | ValueNameUnknown (name : String)
  | ValueNotAllowed (valueText propertyName : String)
  | ValueMismatch (propertyValue valueType propertyName : String)
  | ValueMalformed (propertyValue : String)
  deriving DecidableEq

deriving instance DecidableEq for Except

/-- `VcardError::parse_error` (src/error.rs lines 34-45): the second
breadcrumb, i.e. the innermost rule name. -/
def VcardError.parseErrorRule : VcardError → String
  | .ParseError v => (v.get? 1).getD ""
  | _ => ""

/-! ## nom combinator embedding

The grammar in src/parse is written with nom 7.  Parsers are functions from
an input byte slice to either `(remaining, value)` or an error; we embed the
input as `List Char` (the inputs of all claims are ASCII).  `from_error_kind`
(src/error.rs lines 70-77) stores the remaining input as a string; `context`
pushes a rule name (src/error.rs lines 88-97).  No parser in the grammar uses
nom `Failure` (no cut), so a single error channel suffices. -/

/-- A nom parser over char lists. -/
def Parse (α : Type) : Type := List Char → Except VcardError (List Char × α)

/-- Sequencing of parsers: run the first, feed its remaining input to the
second (how nom `tuple` chains sub-parsers; the first error propagates). -/
def pbind {α β : Type} (p : Parse α) (f : α → Parse β) : Parse β := fun i =>
  match p i with
  | .error e => .error e
  | .ok (i2, a) => f a i2

/-- A parser that consumes nothing and yields a value. -/
def ppure {α : Type} (a : α) : Parse α := fun i => .ok (i, a)

instance : Monad Parse where
  pure := ppure
  bind := pbind

/-- nom `from_error_kind` for `VcardError` (src/error.rs lines 70-77). -/
def fromErrorKind (i : List Char) : VcardError :=
  .ParseError [String.mk i]

/-- nom `context`: push a rule name onto the breadcrumb stack on failure
(`add_context`, src/error.rs lines 88-97). -/
def pcontext (name : String) (p : Parse α) : Parse α := fun i =>
  match p i with
  | .ok r => .ok r
  | .error (.ParseError v) => .error (.ParseError (v ++ [name]))
  | .error _ => .error (.ParseError [name])

/-- nom `tag`. -/
def ptag (s : List Char) : Parse (List Char) := fun i =>
  if s.isPrefixOf i then .ok (i.drop s.length, s) else .error (fromErrorKind i)

/-- ASCII lower-casing used by nom `tag_no_case`. -/
def lowerChar (c : Char) : Char :=
  if 'A' ≤ c ∧ c ≤ 'Z' then Char.ofNat (c.toNat + 32) else c

/-- nom `tag_no_case` (ASCII case-insensitive); returns the matched input
slice in its original case. -/
def ptagNoCase (s : List Char) : Parse (List Char) := fun i =>
  let taken := i.take s.length
  if taken.map lowerChar = s.map lowerChar ∧ taken.length = s.length then
    .ok (i.drop s.length, taken)
  else
    .error (fromErrorKind i)

/-- nom `line_ending`: a line feed or a carriage return plus line feed. -/
def plineEnding : Parse (List Char) := fun i =>
  match i with
  | '\n' :: r => .ok (r, ['\n'])
  | '\r' :: '\n' :: r => .ok (r, ['\r', '\n'])
  | _ => .error (fromErrorKind i)

/-- nom `char`. -/
def pchar (c : Char) : Parse Char := fun i =>
  match i with
  | d :: r => if d = c then .ok (r, c) else .error (fromErrorKind i)
  | [] => .error (fromErrorKind i)

/-- nom `take_while`. -/
def ptakeWhile (p : Char → Bool) : Parse (List Char) := fun i =>
  .ok (i.dropWhile p, i.takeWhile p)

/-- nom `take_while1`. -/
def ptakeWhile1 (p : Char → Bool) : Parse (List Char) := fun i =>
  match i.takeWhile p with
  | [] => .error (fromErrorKind i)
  | l => .ok (i.dropWhile p, l)

/-- nom `space1`: one or more spaces or tabs. -/
def pspace1 : Parse (List Char) :=
  ptakeWhile1 (fun c => c == ' ' || c == '\t')

/-- nom `opt`. -/
def popt (p : Parse α) : Parse (Option α) := fun i =>
  match p i with
  | .ok (i2, x) => .ok (i2, some x)
  | .error _ => .ok (i, none)

/-- nom `peek`: run a parser without consuming input. -/
def ppeek (p : Parse α) : Parse α := fun i =>
  match p i with
  | .ok (_, x) => .ok (i, x)
  | .error e => .error e

/-- nom `not`: succeed without consuming exactly when the child fails. -/
def pnot (p : Parse α) : Parse Unit := fun i =>
  match p i with
  | .ok _ => .error (fromErrorKind i)
  | .error _ => .ok (i, ())

/-- nom `recognize`: return the input slice the child consumed. -/
def precognize (p : Parse α) : Parse (List Char) := fun i =>
  match p i with
  | .ok (i2, _) => .ok (i2, i.take (i.length - i2.length))
  | .error e => .error e

/-- nom `alt`: ordered choice; on total failure the last alternative's error
is returned (nom routes it through `append`, which keeps the breadcrumb list
unchanged, src/error.rs lines 79-85). -/
def palt : List (Parse α) → Parse α
  | [] => fun i => .error (fromErrorKind i)
  | [p] => p
  | p :: ps => fun i =>
    match p i with
    | .ok r => .ok r
    | .error _ => palt ps i

/-- Fuel-driven body of nom `many0`.  nom loops while the child succeeds and
consumes input, and errors out if the child succeeds without consuming; each
iteration consumes at least one char, so fuel `length + 1` (see `pmany0`)
never runs out and the embedding agrees with nom's unbounded loop. -/
def pmany0Go (p : Parse α) : Nat → Parse (List α)
  | 0 => fun i => .ok (i, [])
  | fuel + 1 => fun i =>
    match p i with
    | .error _ => .ok (i, [])
    | .ok (i2, x) =>
      if i2.length < i.length then
        match pmany0Go p fuel i2 with
        | .ok (i3, xs) => .ok (i3, x :: xs)
        | .error e => .error e
      else
        .error (fromErrorKind i)

/-- nom `many0`. -/
def pmany0 (p : Parse α) : Parse (List α) := fun i =>
  pmany0Go p (i.length + 1) i

/-! ## Delimiters (src/parse/delimiters.rs) -/

/-- `colon` (src/parse/delimiters.rs lines 13-18). -/
def colonD : Parse (List Char) := pcontext "DELIMITER_COLON" (ptag [':'])

/-- `comma` (src/parse/delimiters.rs lines 20-25). -/
def commaD : Parse (List Char) := pcontext "DELIMITER_COMMA" (ptag [','])

/-- `fold` (src/parse/delimiters.rs lines 27-32): a line ending followed by
`space1`, i.e. one **or more** spaces or tabs; returns the whitespace run. -/
def foldD : Parse (List Char) :=
  pcontext "DELIMITER_CONCAT" (do
    let _ ← plineEnding
    let s ← pspace1
    pure s)

/-- `equals` (src/parse/delimiters.rs lines 34-39). -/
def equalsD : Parse (List Char) := pcontext "DELIMITER_EQUALS" (ptag ['='])

/-- `semicolon` (src/parse/delimiters.rs lines 41-46). -/
def semicolonD : Parse (List Char) := pcontext "DELIMITER_SEMI_COLON" (ptag [';'])

/-! ## Value grammar (src/parse/value.rs) -/

/-- `is_value_char` (src/parse/value.rs lines 76-82). -/
def isValueChar (c : Char) : Bool :=
  !(c == '\n' || c == '\r' || c == '\t')

/-- `is_qsafe_char` (src/parse/value.rs lines 46-55). -/
def isQsafeChar (c : Char) : Bool :=
  !(c == '\n' || c == '\r' || c == '\t' || c == '"')

/-- `is_safe_char` (src/parse/value.rs lines 58-73). -/
def isSafeChar (c : Char) : Bool :=
  !(c == '\n' || c == '\r' || c == '\t' || c == '"' || c == ';' || c == ':')

/-- `is_alphanumeric_dash` (src/parse/value.rs lines 85-91). -/
def isAlphanumericDash (c : Char) : Bool :=
  c == '-' || (('0' ≤ c && c ≤ '9') || ('a' ≤ c && c ≤ 'z') ||
    ('A' ≤ c && c ≤ 'Z'))

/-- `value_folded` (src/parse/value.rs lines 24-29): a fold marker followed
by a run of value chars. -/
def valueFolded : Parse (List Char) :=
  pcontext "VALUE_FOLDED" (do
    let _ ← foldD
    let s ← ptakeWhile isValueChar
    pure s)

/-- `value` (src/parse/value.rs lines 17-22): a run of value chars plus any
number of folded continuations. -/
def valueP : Parse (List Char × Option (List (List Char))) :=
  pcontext "VALUE" (do
    let v ← ptakeWhile isValueChar
    let f ← popt (pmany0 valueFolded)
    pure (v, f))

/-- `value_qsafe` (src/parse/value.rs lines 31-36): a double-quoted run of
qsafe chars, returned with the quotes. -/
def valueQsafe : Parse (List Char) :=
  pcontext "VALUE_QSAFE" (precognize (do
    let _ ← pchar '"'
    let _ ← ptakeWhile isQsafeChar
    let _ ← pchar '"'
    pure ()))

/-- `value_safe` (src/parse/value.rs lines 38-43). -/
def valueSafe : Parse (List Char) :=
  pcontext "VALUE_SAFE" (ptakeWhile isSafeChar)

/-! ## Parameter grammar (src/parse/parameter.rs) -/

/-- `parameter_x_name` (src/parse/parameter.rs lines 182-187). -/
def parameterXNameP : Parse (List Char) :=
  pcontext "PARAMETER_XNAME" (precognize (do
    let _ ← ptagNoCase ['x', '-']
    let _ ← ptakeWhile1 isAlphanumericDash
    pure ()))

/-- `parameter_name` (src/parse/parameter.rs lines 33-59): ordered choice
over the known parameter names, then x-names. -/
def parameterNameP : Parse (List Char) :=
  pcontext "Unable to parse parameter type." (palt [
    ptagNoCase "ALTID".toList,
    ptagNoCase "CALSCALE".toList,
    ptagNoCase "CC".toList,
    ptagNoCase "GEO".toList,
    ptagNoCase "INDEX".toList,
    ptagNoCase "LABEL".toList,
    ptagNoCase "LANGUAGE".toList,
    ptagNoCase "LEVEL".toList,
    ptagNoCase "MEDIATYPE".toList,
    ptagNoCase "PID".toList,
    ptagNoCase "PREF".toList,
    ptagNoCase "SORT-AS".toList,
    ptagNoCase "TYPE".toList,
    ptagNoCase "TZ".toList,
    ptagNoCase "VALUE".toList,
    parameterXNameP])

/-- `parameter_value` (src/parse/parameter.rs lines 25-30). -/
def parameterValueP : Parse (List Char) :=
  pcontext "PARAMETER_VALUE" (palt [valueQsafe, valueSafe])

/-- `parameter` (src/parse/parameter.rs lines 17-22): semicolon, name,
equals sign, value. -/
def parameterP : Parse (List Char × List Char) :=
  pcontext "PARAMETER" (do
    let _ ← semicolonD
    let n ← parameterNameP
    let _ ← equalsD
    let v ← parameterValueP
    pure (n, v))

/-! ## Property grammar (src/parse/property.rs) -/

/-- `property_name_begin` (src/parse/property.rs lines 90-95). -/
def propertyNameBegin : Parse (List Char) :=
  pcontext "PROPERTY_BEGIN_MISSING" (ptagNoCase "BEGIN".toList)

/-- `property_name_version` (src/parse/property.rs lines 98-103). -/
def propertyNameVersion : Parse (List Char) :=
  pcontext "PROPERTY_VERSION_MISSING" (ptagNoCase "VERSION".toList)

/-- `property_name_end` (src/parse/property.rs lines 106-111). -/
def propertyNameEnd : Parse (List Char) :=
  pcontext "PROPERTY_END_MISSING" (ptagNoCase "END".toList)

/-- `property_iana_token` (src/parse/property.rs lines 458-463): any
alphanumeric-dash run that is not literally BEGIN, VERSION or END. -/
def propertyIanaToken : Parse (List Char) :=
  pcontext "PROPERTY_IANA_TOKEN" (do
    let _ ← pnot propertyNameBegin
    let _ ← pnot propertyNameVersion
    let _ ← pnot propertyNameEnd
    let s ← ptakeWhile1 isAlphanumericDash
    pure s)

/-- `property_x_name` (src/parse/property.rs lines 466-471). -/
def propertyXNameP : Parse (List Char) :=
  pcontext "PROPERTY_XNAME" (precognize (do
    let _ ← ptagNoCase ['x', '-']
    let _ ← ptakeWhile1 isAlphanumericDash
    pure ()))

/-- Ordered choice over the known property names (the nested `alt` chain of
`property_name`, src/parse/property.rs lines 66-72, flattened in order),
then x-names, then iana tokens. -/
def propertyNameAlt : Parse (List Char) :=
  palt [
    ptagNoCase "ADR".toList,
    ptagNoCase "ANNIVERSARY".toList,
    ptagNoCase "BDAY".toList,
    ptagNoCase "BIRTHPLACE".toList,
    ptagNoCase "CALADRURI".toList,
    ptagNoCase "CALURI".toList,
    ptagNoCase "CATEGORIES".toList,
    ptagNoCase "CLIENTPIDMAP".toList,
    ptagNoCase "CONTACT-URI".toList,
    ptagNoCase "DEATHDATE".toList,
    ptagNoCase "DEATHPLACE".toList,
    ptagNoCase "EMAIL".toList,
    ptagNoCase "EXPERTISE".toList,
    ptagNoCase "FBURL".toList,
    ptagNoCase "FN".toList,
    ptagNoCase "GENDER".toList,
    ptagNoCase "GEO".toList,
    ptagNoCase "HOBBY".toList,
    ptagNoCase "IMPP".toList,
    ptagNoCase "INTEREST".toList,
    ptagNoCase "KEY".toList,
    ptagNoCase "KIND".toList,
    ptagNoCase "LANG".toList,
    ptagNoCase "LOGO".toList,
    ptagNoCase "MEMBER".toList,
    ptagNoCase "NICKNAME".toList,
    ptagNoCase "NOTE".toList,
    ptagNoCase "N".toList,
    ptagNoCase "ORG-DIRECTORY".toList,
    ptagNoCase "ORG".toList,
    ptagNoCase "PHOTO".toList,
    ptagNoCase "PRODID".toList,
    ptagNoCase "RELATED".toList,
    ptagNoCase "REV".toList,
    ptagNoCase "ROLE".toList,
    ptagNoCase "SOUND".toList,
    ptagNoCase "SOURCE".toList,
    ptagNoCase "TEL".toList,
    ptagNoCase "TITLE".toList,
    ptagNoCase "TZ".toList,
    ptagNoCase "UID".toList,
    ptagNoCase "URL".toList,
    ptagNoCase "XML".toList,
    propertyXNameP,
    propertyIanaToken]

/-- `property_group` and `property_name` (src/parse/property.rs lines 61-87)
are mutually recursive (the group parser peeks the name parser).  The fuel
argument bounds the nesting depth of group prefixes; every level consumes at
least two characters before re-entering the name parser, so the fuel
`input length + 1` supplied by `propertyNameP` is never exhausted and the
embedding agrees with the Rust recursion. -/
def propertyGroupF : Nat → Parse (List Char)
  | 0 => fun i => .error (fromErrorKind i)
  | fuel + 1 =>
    pcontext "PROPERTY_GROUP" (do
      let s ← ptakeWhile1 isAlphanumericDash
      let _ ← ptag ['.']
      let _ ← ppeek (pcontext "PROPERTY_NAME" (do
        let g ← popt (propertyGroupF fuel)
        let n ← propertyNameAlt
        pure (g, n)))
      pure s)

/-- `property_name` (src/parse/property.rs lines 61-79): an optional group
prefix then the name alternation. -/
def propertyNameP : Parse (Option (List Char) × List Char) := fun i =>
  pcontext "PROPERTY_NAME" (do
    let g ← popt (propertyGroupF (i.length + 1))
    let n ← propertyNameAlt
    pure (g, n)) i

/-- `property_value` (src/parse/property.rs lines 53-58): a (possibly
folded) value followed by a peeked line ending. -/
def propertyValueP : Parse (List Char × Option (List (List Char))) :=
  pcontext "PROPERTY_VALUE" (do
    let v ← valueP
    let _ ← ppeek plineEnding
    pure v)

/-- Raw parsed property data (`PropertyData`, src/parse/mod.rs line 13):
optional group and name, parameter name/value pairs, value with folded
fragments. -/
abbrev PropertyData :=
  (Option (List Char) × List Char) × List (List Char × List Char) ×
    (List Char × Option (List (List Char)))

/-- `property` (src/parse/property.rs lines 20-25): name, parameters, colon,
value, line ending. -/
def propertyP : Parse PropertyData :=
  pcontext "PROPERTY" (do
    let n ← propertyNameP
    let ps ← pmany0 parameterP
    let _ ← colonD
    let v ← propertyValueP
    let _ ← plineEnding
    pure (n, ps, v))

/-- `property_begin` (src/parse/property.rs lines 28-33). -/
def propertyBegin : Parse (List Char) :=
  pcontext "PROPERTY_BEGIN" (do
    let n ← propertyNameBegin
    let _ ← colonD
    let _ ← ptag "VCARD".toList
    let _ ← plineEnding
    pure n)

/-- `property_version` (src/parse/property.rs lines 36-41): the value must
be the literal `4.0`. -/
def propertyVersion : Parse (List Char) :=
  pcontext "PROPERTY_VERSION" (do
    let n ← propertyNameVersion
    let _ ← colonD
    let _ ← ptag "4.0".toList
    let _ ← plineEnding
    pure n)

/-- `property_end` (src/parse/property.rs lines 44-49). -/
def propertyEnd : Parse (List Char) :=
  pcontext "PROPERTY_END" (do
    let n ← propertyNameEnd
    let _ ← colonD
    let _ ← ptag "VCARD".toList
    let _ ← plineEnding
    pure n)

/-! ## Vcard grammar (src/parse/vcard.rs) -/

/-- `vcard` (src/parse/vcard.rs lines 19-24): BEGIN line, VERSION line, any
number of content properties, END line. -/
def vcardP : Parse (List PropertyData) :=
  pcontext "VCARD" (do
    let _ ← propertyBegin
    let _ ← propertyVersion
    let ps ← pmany0 propertyP
    let _ ← propertyEnd
    pure ps)

/-! ## Decimal numerals and the i32 string codec

Rust renders integers with `format!` (decimal) and parses them with
`str::parse::<i32>` (optional sign, one or more decimal digits, value within
the i32 range). -/

/-- The decimal digit character for `n ≤ 9`. -/
def digitChar (n : Nat) : Char :=
  if n = 0 then '0' else if n = 1 then '1' else if n = 2 then '2'
  else if n = 3 then '3' else if n = 4 then '4' else if n = 5 then '5'
  else if n = 6 then '6' else if n = 7 then '7' else if n = 8 then '8'
  else '9'

/-- Fuel-driven decimal rendering; the fuel bounds the digit count and
`natDigits` always supplies enough. -/
def natDigitsAux : Nat → Nat → List Char
  | 0, _ => []
  | fuel + 1, n =>
    if n < 10 then [digitChar n]
    else natDigitsAux fuel (n / 10) ++ [digitChar (n % 10)]

/-- Decimal rendering of a natural number, as Rust `format!` prints an
unsigned integer. -/
def natDigits (n : Nat) : List Char := natDigitsAux (n + 1) n

/-- Decimal rendering of an integer, as Rust `format!` prints an `i32`. -/
def intDigits (n : Int) : List Char :=
  if n < 0 then '-' :: natDigits (-n).toNat else natDigits n.toNat

/-- ASCII decimal digit test. -/
def isDigitChar (c : Char) : Bool := '0' ≤ c && c ≤ '9'

/-- Numeric value of a decimal digit character. -/
def digitVal (c : Char) : Nat := c.toNat - 48

/-- Value of a decimal digit string. -/
def digitsVal (l : List Char) : Nat :=
  l.foldl (fun a c => a * 10 + digitVal c) 0

/-- Magnitude-and-bounds part of `str::parse::<i32>`: one or more decimal
digits whose signed value fits in an `i32`. -/
def parseI32Core (ds : List Char) (sign : Int) : Option Int :=
  if ds ≠ [] ∧ ds.all isDigitChar then
    let v : Int := sign * (digitsVal ds : Int)
    if -2147483648 ≤ v ∧ v ≤ 2147483647 then some v else none
  else none

/-- `str::parse::<i32>`: optional `+`/`-` sign, then decimal digits, with an
overflow check (for decimal input, overflow during accumulation is
equivalent to the final value leaving the i32 range). -/
def parseI32 : List Char → Option Int
  | [] => none
  | c :: r =>
    if c = '+' then parseI32Core r 1
    else if c = '-' then parseI32Core r (-1)
    else parseI32Core (c :: r) 1

/-! ## String splitting helpers (Rust `str::split` / `str::split_once`) -/

/-- Rust `str::split(sep)`: splits at every separator; the empty string
yields one empty chunk. -/
def splitOnChar (sep : Char) : List Char → List (List Char)
  | [] => [[]]
  | c :: r =>
    if c = sep then [] :: splitOnChar sep r
    else
      match splitOnChar sep r with
      | h :: t => (c :: h) :: t
      | [] => [[c]]

/-- Rust `str::split_once(sep)`: split at the first separator, if any. -/
def splitOnceChar (sep : Char) : List Char → Option (List Char × List Char)
  | [] => none
  | c :: r =>
    if c = sep then some ([], r)
    else (splitOnceChar sep r).map (fun p => (c :: p.1, p.2))

/-- ASCII upper-casing (Rust `str::to_uppercase` on the ASCII inputs used
throughout the code). -/
def upperChar (c : Char) : Char :=
  if 'a' ≤ c ∧ c ≤ 'z' then Char.ofNat (c.toNat - 32) else c

/-- ASCII upper-casing of a string. -/
def uppercase (s : List Char) : List Char := s.map upperChar

/-! ## External crate models

The `url` and `language_tags` crates are external collaborators (spec section
6 treats such parsing services as opaque).  They are modelled on the simple
inputs the claims exercise. -/

/-- Modelled external dependency: `url::Url::parse` followed by
`to_string`, restricted to URN-style URIs of the form
`scheme:opaque-remainder` with a nonempty lowercase alphabetic scheme and a
nonempty remainder; such URIs parse successfully and render back
unchanged. -/
def urlParseRender (s : List Char) : Option (List Char) :=
  match splitOnceChar ':' s with
  | some (scheme, rest) =>
    if scheme ≠ [] ∧ scheme.all (fun c => 'a' ≤ c && c ≤ 'z') ∧ rest ≠ []
    then some s else none
  | none => none

/-- Modelled external dependency: `language_tags::LanguageTag::parse`
followed by `to_string`, restricted to primary-subtag-only tags (one to
eight lowercase ASCII letters); such tags parse successfully and render
back unchanged. -/
def languageTagParseRender (s : List Char) : Option (List Char) :=
  if s ≠ [] ∧ s.length ≤ 8 ∧ s.all (fun c => 'a' ≤ c && c ≤ 'z')
  then some s else none

/-! ## Value model (src/vcard/value/*.rs)

The subset of the thirteen value kinds exercised by the claims.  `text`
stores the unescaped form (`ValueTextData::from` unescapes and its `Display`
re-escapes, src/vcard/value/value_text.rs); the same holds for every entry
of a `textlist`. -/

inductive Value where
  | text (s : List Char)
  | integer (n : Int)
  | languagetag (s : List Char)
  | textlist (delimiter : Char) (entries : List (List Char))
  | pid (pairs : List (Int × Option Int))
  | clientpidmap (id : Int) (client : List Char)
  deriving DecidableEq

/-- Display of one PID pair (`ValuePidData`'s `Display`,
src/vcard/value/value_pid.rs lines 39-57). -/
def pidPairDisplay (pr : Int × Option Int) : List Char :=
  intDigits pr.1 ++ (match pr.2 with
    | some c => '.' :: intDigits c
    | none => [])

/-- `Display` for values (src/vcard/value/mod.rs lines 83-101 dispatching to
the per-kind `Display` impls). -/
def Value.display : Value → List Char
  | .text s => escape s
  | .integer n => intDigits n
  | .languagetag s => s
  | .textlist d xs => List.intercalate [d] (xs.map escape)
  | .pid pairs => List.intercalate [','] (pairs.map pidPairDisplay)
  | .clientpidmap id client => intDigits id ++ ';' :: client

/-- `ValuePidData::try_from` (src/vcard/value/value_pid.rs lines 16-37):
split on semicolons, each chunk is `id` or `id.clientid` with both parts
i32; unparsable chunks are skipped; an empty result is `ValueMalformed`. -/
def pidTryFrom (s : List Char) : Except VcardError (List (Int × Option Int)) :=
  let pairs := (splitOnChar ';' s).foldl (fun acc datum =>
    match splitOnceChar '.' datum with
    | some (a, b) =>
      match parseI32 a, parseI32 b with
      | some id, some cid => acc ++ [(id, some cid)]
      | _, _ => acc
    | none =>
      match parseI32 datum with
      | some id => acc ++ [(id, none)]
      | none => acc) []
  if pairs ≠ [] then .ok pairs else .error (.ValueMalformed (String.mk s))

/-- `ValueClientPidMapData::try_from` (src/vcard/value/value_clientpidmap.rs
lines 13-24): `id;uri` with an i32 id and a URL-parsable uri. -/
def clientPidMapTryFrom (s : List Char) :
    Except VcardError (Int × List Char) :=
  match splitOnceChar ';' s with
  | some (a, b) =>
    match parseI32 a, urlParseRender b with
    | some id, some client => .ok (id, client)
    | _, _ => .error (.ValueMalformed (String.mk s))
  | none => .error (.ValueMalformed (String.mk s))

/-- The loop of `ValueTextListData::from` (src/vcard/value/value_textlist.rs
lines 44-66); `value` is the accumulated list, `text` the pending chunk and
`prev` the previous character (note that the `continue` arm does not update
`prev`, exactly as in the source). -/
def textListLoop (delim : Char) (value : List (List Char))
    (text : List Char) (prev : Char) : List Char → List (List Char)
  | [] => value
  | c :: rest =>
    if rest = [] then
      if c = delim then value ++ [unescape text, []]
      else value ++ [unescape (text ++ [c])]
    else if c = delim ∧ prev ≠ '\\' then
      textListLoop delim (value ++ [unescape text]) [] prev rest
    else textListLoop delim value (text ++ [c]) c rest

/-- `ValueTextListData::from` (src/vcard/value/value_textlist.rs lines
20-73): split on a delimiter, honouring backslash escapes, unescaping each
chunk. -/
def textListFrom (s : List Char) (delim : Char) : List (List Char) :=
  match s with
  | [] => [[]]
  | prev :: rest =>
    if prev = delim then
      if rest = [] then [[], []]
      else textListLoop delim [[]] [] prev rest
    else if rest = [] then [unescape [prev]]
    else textListLoop delim [] [prev] prev rest

/-! ## Parameter model (src/vcard/parameter/*.rs)

In Rust `Parameter` is an enum with one variant per parameter name; each
variant's `name()` returns a fixed constant and holds one `Value`.  The
embedding carries the constant name and the value, plus a flag recording
whether the variant is the `ParameterXName` catch-all (used by the
allowed-parameter check in `add_parameter`). -/

structure Parameter where
  xname : Bool
  name : List Char
  value : Value
  deriving DecidableEq

/-- `ParameterPrefData::set_value` (src/vcard/parameter/parameter_pref.rs
lines 24-38): only integer values are allowed and the integer must lie in
`1..=100`; returns the stored value. -/
def prefSetValue (v : Value) : Except VcardError Value :=
  match v with
  | .integer n =>
    if n < 1 ∨ 100 < n then
      .error (.ValueInvalid (String.mk v.display) "PREF")
    else .ok v
  | _ => .error (.ValueNotAllowed (String.mk v.display) "PREF")

/-- `ParameterPrefData::try_from` (src/vcard/parameter/parameter_pref.rs
lines 49-56): parse the string as an i32 (`ValueIntegerData::try_from`,
src/vcard/value/value_integer.rs lines 16-24); **no range check is
performed**. -/
def prefTryFrom (s : List Char) : Except VcardError Value :=
  match parseI32 s with
  | some n => .ok (.integer n)
  | none => .error (.ValueMalformed (String.mk s))

/-- `Parameter::try_from((&str, &str))` (src/vcard/parameter/mod.rs lines
150-172), restricted to the parameter kinds the claims exercise (PID and
PREF).  The Rust code dispatches on the upper-cased name over all sixteen
kinds; the remaining kinds are not constructed on any path used by a
theorem in this file, so the embedding rejects them to stay total. -/
def Parameter.tryFromPair (name value : List Char) :
    Except VcardError Parameter :=
  let u := uppercase name
  if u = "PID".toList then
    match pidTryFrom value with
    | .ok pairs => .ok ⟨false, "PID".toList, .pid pairs⟩
    | .error e => .error e
  else if u = "PREF".toList then
    match prefTryFrom value with
    | .ok v => .ok ⟨false, "PREF".toList, v⟩
    | .error e => .error e
  else .error (.ValueNameUnknown (String.mk name))

/-- `Parameter::try_from(&str)` (src/vcard/parameter/mod.rs lines 135-141):
run the nom parameter grammar, then dispatch on the parsed name/value. -/
def Parameter.tryFromStr (s : List Char) : Except VcardError Parameter :=
  match parameterP s with
  | .ok (_, (n, v)) => Parameter.tryFromPair n v
  | .error (.ParseError v) => .error (.ParseError v)
  | .error _ => .error (.ParseError [])

/-! ## Property model (src/vcard/property/*.rs)

In Rust `Property` is an enum with one variant per property name.  Every
variant's `name()`, `cardinality()` and `allowed_parameters()` return fixed
constants (`cardinality()` is always one of the two strings `SINGLE` and
`MULTIPLE` from src/constants.rs, embedded as a two-valued type); each
variant owns a group, a parameter list and a value.  The embedding carries
those constants as fields, plus a flag recording whether the variant is the
`PropertyXName` catch-all. -/

inductive Card where
  | single
  | multiple
  deriving DecidableEq

structure Property where
  name : List Char
  card : Card
  allowed : List (List Char)
  xname : Bool := false
  group : Option (List Char) := none
  parameters : List Parameter := []
  value : Value
  deriving DecidableEq

/-- `HasParameters::has_value_type` (src/traits.rs lines 56-58): the
displayed value of the first VALUE parameter, if any. -/
def hasValueType (p : Property) : Option (List Char) :=
  (p.parameters.find? (fun param => param.name = "VALUE".toList)).map
    (fun param => param.value.display)

/-- `HasParameters::add_parameter` (src/traits.rs lines 36-47): reject a
parameter whose name is not in the allowed set, unless it is an x-name
parameter or the allowed set contains ANY; otherwise append it. -/
def addParameter (p : Property) (param : Parameter) :
    Except VcardError Property :=
  if ¬(p.allowed.contains param.name) ∧ ¬(param.xname = true) ∧
      ¬(p.allowed.contains "ANY".toList) then
    .error (.ParameterTypeNotAllowed (String.mk param.name) (String.mk p.name))
  else .ok { p with parameters := p.parameters ++ [param] }

/-- `HasParameters::add_parameters` (src/traits.rs lines 30-35). -/
def addParameters (p : Property) : List Parameter →
    Except VcardError Property
  | [] => .ok p
  | param :: rest =>
    match addParameter p param with
    | .ok p2 => addParameters p2 rest
    | .error e => .error e

/-- The `set_value` pattern shared by the per-property data files: reject a
value of the wrong kind (`ValueNotAllowed`), reject a kind conflicting with
an explicit VALUE parameter (`ValueMismatch`), otherwise store it.
`kindOk` is the `matches!` test of the concrete file and `expected` its
`ValueType` constant. -/
def setValueGuarded (p : Property) (v : Value) (kindOk : Bool)
    (expected : List Char) : Except VcardError Property :=
  if ¬(kindOk = true) then
    .error (.ValueNotAllowed (String.mk v.display) (String.mk p.name))
  else
    match hasValueType p with
    | some vt =>
      if vt ≠ expected then
        .error (.ValueMismatch (String.mk v.display) (String.mk vt)
          (String.mk p.name))
      else .ok { p with value := v }
    | none => .ok { p with value := v }

/-- Modelled from the spec: `PropertyFnData` (the file
src/vcard/property/property_fn.rs is not present in the snapshot).  FN is
single-cardinality (spec sections 3 and 8; the repo's own test
`vcard_property_operations` in src/vcard/mod.rs shows FN is found by the
single-cardinality lookup and not by the multiple-cardinality one) and
holds a TEXT value; the allowed-parameter set follows the RFC 6350 FN
definition and is not consulted by any theorem in this file. -/
def fnAllowed : List (List Char) :=
  ["ALTID", "ANY", "LANGUAGE", "PID", "PREF", "TYPE", "VALUE"].map
    String.toList

/-- Modelled from the spec: default FN property data (`PropertyFnData`). -/
def fnDefault : Property :=
  ⟨"FN".toList, .single, fnAllowed, false, none, [], .text []⟩

/-- Modelled from the spec: `PropertyFnData::try_from`, following the
pattern of the present sibling files (e.g. PropertyRoleData in
src/vcard/property/property_role.rs): add the parameters, then set the
unescaped TEXT value (`ValueTextData::from` unescapes,
src/vcard/value/value_text.rs lines 10-14). -/
def fnTryFrom (group : Option (List Char)) (value : List Char)
    (params : List Parameter) : Except VcardError Property :=
  match addParameters { fnDefault with group := group } params with
  | .ok p =>
    setValueGuarded p (.text (unescape value))
      (match (Value.text (unescape value)) with
        | .text _ => true
        | _ => false) "TEXT".toList
  | .error e => .error e

/-- `PropertyLangData::allowed_parameters`
(src/vcard/property/property_lang.rs lines 35-45). -/
def langAllowed : List (List Char) :=
  ["ALTID", "ANY", "INDEX", "PID", "PREF", "TYPE", "VALUE"].map String.toList

/-- `PropertyLangData::default` (src/vcard/property/property_lang.rs lines
78-86; the default language tag is `en`,
src/vcard/value/value_languagetag.rs lines 12-16). -/
def langDefault : Property :=
  ⟨"LANG".toList, .multiple, langAllowed, false, none, [],
    .languagetag "en".toList⟩

/-- `PropertyLangData::try_from` (src/vcard/property/property_lang.rs lines
88-98): add the parameters, parse the language tag, then `set_value` with
its kind guard and VALUE-parameter check (lines 61-75). -/
def langTryFrom (group : Option (List Char)) (value : List Char)
    (params : List Parameter) : Except VcardError Property :=
  match addParameters { langDefault with group := group } params with
  | .ok p =>
    match languageTagParseRender value with
    | some t =>
      setValueGuarded p (.languagetag t) true "LANGUAGE-TAG".toList
    | none => .error (.ValueMalformed (String.mk value))
  | .error e => .error e

/-- Modelled from the spec: allowed parameters of `PropertyNickNameData`
(the file src/vcard/property/property_nickname.rs is not present in the
snapshot; the set is taken from the older snapshot file
src/vcard/properties/nickname.rs lines 19-31). -/
def nicknameAllowed : List (List Char) :=
  ["ALTID", "ANY", "INDEX", "LANGUAGE", "PID", "PREF", "TYPE", "VALUE"].map
    String.toList

/-- Modelled from the spec: default NICKNAME property data.  NICKNAME is
multiple-cardinality (spec section 8 scenario 4) with a comma-delimited
TEXTLIST value (spec section 4.3; src/vcard/properties/nickname.rs). -/
def nicknameDefault : Property :=
  ⟨"NICKNAME".toList, .multiple, nicknameAllowed, false, none, [],
    .textlist ',' []⟩

/-- Modelled from the spec: `PropertyNickNameData::try_from`, following the
pattern of the present sibling files: add the parameters, then set the
TEXTLIST value produced by the comma splitter of
src/vcard/value/value_textlist.rs. -/
def nicknameTryFrom (group : Option (List Char)) (value : List Char)
    (params : List Parameter) : Except VcardError Property :=
  match addParameters { nicknameDefault with group := group } params with
  | .ok p =>
    setValueGuarded p (.textlist ',' (textListFrom value ',')) true
      "TEXT".toList
  | .error e => .error e

/-- `PropertyClientPidMapData::allowed_parameters`
(src/vcard/property/property_clientpidmap.rs lines 35-37). -/
def clientPidMapAllowed : List (List Char) := [ "ANY".toList ]

/-- `PropertyClientPidMapData::default`
(src/vcard/property/property_clientpidmap.rs lines 64-72; the default value
has id 1 and an empty client string,
src/vcard/value/value_clientpidmap.rs lines 26-30). -/
def clientPidMapDefault : Property :=
  ⟨"CLIENTPIDMAP".toList, .multiple, clientPidMapAllowed, false, none, [],
    .clientpidmap 1 []⟩

/-- `PropertyClientPidMapData::try_from`
(src/vcard/property/property_clientpidmap.rs lines 74-84); its `set_value`
(lines 53-61) has only the kind guard, no VALUE-parameter check. -/
def clientPidMapTryFromParts (group : Option (List Char))
    (value : List Char) (params : List Parameter) :
    Except VcardError Property :=
  match addParameters { clientPidMapDefault with group := group } params with
  | .ok p =>
    match clientPidMapTryFrom value with
    | .ok (id, client) => .ok { p with value := .clientpidmap id client }
    | .error e => .error e
  | .error e => .error e

/-- `PropertyXNameData::allowed_parameters`
(src/vcard/property/property_xname.rs lines 47-66). -/
def xnameAllowed : List (List Char) :=
  ["ALTID", "ANY", "CALSCALE", "CC", "GEO", "INDEX", "LABEL", "LANGUAGE",
    "LEVEL", "MEDIATYPE", "PID", "PREF", "SORT-AS", "TYPE", "TZ",
    "VALUE"].map String.toList

/-- `PropertyXNameData::try_from` (src/vcard/property/property_xname.rs
lines 99-114): x-name properties are multiple-cardinality (lines 28-32)
with a TEXT value. -/
def xnameTryFrom (group : Option (List Char)) (name value : List Char)
    (params : List Parameter) : Except VcardError Property :=
  match addParameters
      ⟨name, .multiple, xnameAllowed, true, group, [], .text []⟩ params with
  | .ok p => setValueGuarded p (.text (unescape value)) true "TEXT".toList
  | .error e => .error e

/-- Property names of the repository that none of the claims construct (the
remaining arms of `Property::create`).  The Rust code builds the
corresponding variant for each; the embedding rejects them to stay total,
and no theorem in this file reaches these arms. -/
def unmodelledNames : List (List Char) :=
  ["ADR", "ANNIVERSARY", "BDAY", "BIRTHPLACE", "CALADRURI", "CALURI",
    "CATEGORIES", "CONTACT-URI", "DEATHDATE", "DEATHPLACE", "EMAIL",
    "EXPERTISE", "FBURL", "GENDER", "GEO", "HOBBY", "IMPP", "INTEREST",
    "KEY", "KIND", "LOGO", "MEMBER", "NOTE", "N", "ORG-DIRECTORY", "ORG",
    "PHOTO", "PRODID", "RELATED", "REV", "ROLE", "SOUND", "SOURCE", "TEL",
    "TITLE", "TZ", "UID", "URL", "XML"].map String.toList

/-- `Property::create` (src/vcard/property/mod.rs lines 247-294): dispatch
on the upper-cased name; unknown names fall through to the x-name variant
with the original name. -/
def Property.create (group : Option (List Char)) (name : List Char)
    (params : List Parameter) (value : List Char) :
    Except VcardError Property :=
  let u := uppercase name
  if u = "FN".toList then fnTryFrom group value params
  else if u = "LANG".toList then langTryFrom group value params
  else if u = "NICKNAME".toList then nicknameTryFrom group value params
  else if u = "CLIENTPIDMAP".toList then
    clientPidMapTryFromParts group value params
  else if unmodelledNames.contains u then
    .error (.ValueNameUnknown (String.mk name))
  else xnameTryFrom group name value params

/-- `Property::create_from_data` (src/vcard/property/mod.rs lines 296-322):
convert each raw parameter, join the value fragment with all folded
fragments, then dispatch on the name.  (In the char embedding the UTF-8
conversions always succeed.) -/
def Property.createFromData (d : PropertyData) :
    Except VcardError Property :=
  let ((group, name), params, (value, folds)) := d
  let rec convertParams : List (List Char × List Char) →
      Except VcardError (List Parameter)
    | [] => .ok []
    | (n, v) :: rest =>
      match Parameter.tryFromPair n v with
      | .ok p =>
        match convertParams rest with
        | .ok ps => .ok (p :: ps)
        | .error e => .error e
      | .error e => .error e
  match convertParams params with
  | .ok ps =>
    Property.create group name ps
      (value ++ (match folds with
        | some fs => fs.flatten
        | none => []))
  | .error e => .error e

/-- The `From<nom::Err<VcardError>>` conversion (src/error.rs lines 48-62):
collect the breadcrumbs of a `ParseError`, anything else becomes an empty
breadcrumb list. -/
def convertNomError : VcardError → VcardError
  | .ParseError v => .ParseError v
  | _ => .ParseError []

/-- `Property::create_from_str` (src/vcard/property/mod.rs lines 324-326):
run the nom property grammar, then convert. -/
def Property.createFromStr (s : List Char) : Except VcardError Property :=
  match propertyP s with
  | .ok (_, d) => Property.createFromData d
  | .error e => .error (convertNomError e)

/-! ## Property matching (src/vcard/property/mod.rs lines 433-485) -/

/-- The inner `_pids_get` of `PartialEq::eq` (src/vcard/property/mod.rs
lines 459-468): the value of the first PID parameter that holds a
`ValuePid`. -/
def pidsGet (p : Property) : Option (List (Int × Option Int)) :=
  p.parameters.findSome? (fun param =>
    if param.name = "PID".toList then
      match param.value with
      | .pid data => some data
      | _ => none
    else none)

/-- `impl PartialEq<Property> for Property` (src/vcard/property/mod.rs lines
434-485), the RFC 6350 section 7.1.2/7.1.3 matching algorithm: CLIENTPIDMAP
never matches; different names never match; a single-cardinality left side
with an equal name always matches; a multiple-cardinality left side matches
when both sides carry PID parameters with a common pair; otherwise no
match. -/
def propertyMatches (a b : Property) : Bool :=
  if a.name = "CLIENTPIDMAP".toList then false
  else if a.name ≠ b.name then false
  else if a.card = Card.single ∧ a.name = b.name then true
  else if a.card = Card.multiple ∧ a.name = b.name then
    match pidsGet a, pidsGet b with
    | some pa, some pb => pa.any (fun x => pb.any (fun y => x = y))
    | _, _ => false
  else false

/-! ## Vcard aggregate (src/vcard/mod.rs) -/

structure Vcard where
  client : Option (List Char)
  properties : List Property
  deriving DecidableEq

/-- `Vcard::get_property_index` (src/vcard/mod.rs lines 292-299): index of
the first stored property the given property matches. -/
def Vcard.getPropertyIndex (v : Vcard) (p : Property) : Option Nat :=
  v.properties.findIdx? (fun other => propertyMatches p other)

/-- `Vcard::get_property_by_name` (src/vcard/mod.rs lines 174-180): the
first property with the given name and single cardinality. -/
def Vcard.getPropertyByName (v : Vcard) (s : List Char) : Option Property :=
  v.properties.find? (fun p => decide (p.name = s) && decide (p.card = Card.single))

/-- `Vcard::get_properties_by_name` (src/vcard/mod.rs lines 203-205): all
properties with the given name and multiple cardinality. -/
def Vcard.getPropertiesByName (v : Vcard) (s : List Char) : List Property :=
  v.properties.filter
    (fun p => decide (p.name = s) && decide (p.card = Card.multiple))

/-- `Vcard::get_clientpidmap` (src/vcard/mod.rs lines 301-313): the value of
the first CLIENTPIDMAP property whose client URI equals the card's own
client id. -/
def Vcard.getClientPidMap (v : Vcard) : Option (Int × List Char) :=
  match v.client with
  | none => none
  | some client =>
    (v.getPropertiesByName "CLIENTPIDMAP".toList).findSome? (fun p =>
      match p.value with
      | .clientpidmap id c => if c = client then some (id, c) else none
      | _ => none)

/-- `Vcard::remove_property` (src/vcard/mod.rs lines 235-246): removing FN
is rejected; otherwise remove the first matching property and report
whether one was removed. -/
def Vcard.removeProperty (v : Vcard) (p : Property) :
    Except VcardError (Bool × Vcard) :=
  if p.name = "FN".toList then .error .PropertyFnRequired
  else
    match v.getPropertyIndex p with
    | some i => .ok (true, ⟨v.client, v.properties.eraseIdx i⟩)
    | none => .ok (false, v)

/-- `Vcard::set_property` (src/vcard/mod.rs lines 263-289): if the property
is multiple-cardinality, not CLIENTPIDMAP, admits a PID parameter and does
not match an existing property, auto-assign a PID parameter rendered as
`count+1` (suffixed with the client map id when the card's client has a
CLIENTPIDMAP entry) and parsed back through `Parameter::try_from`; then
replace the first matching property or append. -/
def Vcard.setProperty (v : Vcard) (p0 : Property) :
    Except VcardError (Property × Vcard) :=
  let step : Except VcardError Property :=
    if p0.card = Card.multiple ∧ p0.name ≠ "CLIENTPIDMAP".toList ∧
        p0.allowed.contains "PID".toList then
      if v.getPropertyIndex p0 = none then
        let count := (v.getPropertiesByName p0.name).length
        let str :=
          match v.getClientPidMap with
          | some pr =>
            ';' :: ("PID=".toList ++ natDigits (count + 1) ++
              '.' :: intDigits pr.1)
          | none => ';' :: ("PID=".toList ++ natDigits (count + 1))
        match Parameter.tryFromStr str with
        | .ok param => addParameter p0 param
        | .error e => .error e
      else .ok p0
    else .ok p0
  match step with
  | .error e => .error e
  | .ok p =>
    match v.getPropertyIndex p with
    | some i => .ok (p, ⟨v.client, v.properties.set i p⟩)
    | none => .ok (p, ⟨v.client, v.properties ++ [p]⟩)

/-- `TryFrom<(Option<String>, Vec<Property>)> for Vcard` (src/vcard/mod.rs
lines 345-364): start from an empty card, seed the CLIENTPIDMAP property
when a client id is present, upsert every property, then require FN. -/
def Vcard.tryFromProperties (client : Option (List Char))
    (props : List Property) : Except VcardError Vcard :=
  let v0 : Vcard := ⟨client, []⟩
  let seeded : Except VcardError Vcard :=
    match client with
    | some c =>
      match Property.createFromStr
          ("CLIENTPIDMAP:1;".toList ++ c ++ ['\n']) with
      | .ok cp =>
        match v0.setProperty cp with
        | .ok pr => .ok pr.2
        | .error e => .error e
      | .error e => .error e
    | none => .ok v0
  let rec upsertAll (v : Vcard) : List Property → Except VcardError Vcard
    | [] => .ok v
    | p :: rest =>
      match v.setProperty p with
      | .ok pr => upsertAll pr.2 rest
      | .error e => .error e
  match seeded with
  | .ok v1 =>
    match upsertAll v1 props with
    | .ok v2 =>
      if v2.getPropertyByName "FN".toList = none then
        .error .PropertyFnMissing
      else .ok v2
    | .error e => .error e
  | .error e => .error e

/-- `TryFrom<(Option<String>, VcardData)> for Vcard` (src/vcard/mod.rs lines
332-343): convert each raw property record, then build the card. -/
def Vcard.tryFromData (client : Option (List Char))
    (data : List PropertyData) : Except VcardError Vcard :=
  let rec convertAll : List PropertyData →
      Except VcardError (List Property)
    | [] => .ok []
    | d :: rest =>
      match Property.createFromData d with
      | .ok p =>
        match convertAll rest with
        | .ok ps => .ok (p :: ps)
        | .error e => .error e
      | .error e => .error e
  match convertAll data with
  | .ok props => Vcard.tryFromProperties client props
  | .error e => .error e

/-- `TryFrom<&str> for Vcard` (src/vcard/mod.rs lines 316-322): run the nom
vcard grammar (the unparsed remainder is discarded), then build without a
client id. -/
def Vcard.tryFromStr (s : List Char) : Except VcardError Vcard :=
  match vcardP s with
  | .ok (_, data) => Vcard.tryFromData none data
  | .error e => .error (convertNomError e)

/-- `TryFrom<(&str, &str)> for Vcard` (src/vcard/mod.rs lines 324-330): as
`tryFromStr` but with a client id. -/
def Vcard.tryFromStrWithClient (client s : List Char) :
    Except VcardError Vcard :=
  match vcardP s with
  | .ok (_, data) => Vcard.tryFromData (some client) data
  | .error e => .error (convertNomError e)

/-- `Vcard::new` (src/vcard/mod.rs lines 62-69): a card holding only an FN
property built from the given full name (`PropertyFnData::from`, modelled
from the spec like `fnDefault`; `ValueTextData::from` unescapes). -/
def Vcard.new (s : List Char) : Vcard :=
  ⟨none, [{ fnDefault with value := .text (unescape s) }]⟩

/-- `Display for Parameter` (src/vcard/parameter/mod.rs lines 174-178). -/
def paramDisplay (pr : Parameter) : List Char :=
  ';' :: pr.name ++ '=' :: pr.value.display

/-- `Display for Property` (src/vcard/property/mod.rs lines 414-431):
optional group with a dot, name, parameters, colon, value, line feed. -/
def Property.display (p : Property) : List Char :=
  (match p.group with
    | some g => g ++ ['.']
    | none => []) ++
    p.name ++ (p.parameters.map paramDisplay).flatten ++
    ':' :: p.value.display ++ ['\n']

/-- `Display for Vcard` (src/vcard/mod.rs lines 366-376). -/
def Vcard.render (v : Vcard) : List Char :=
  "BEGIN:VCARD\n".toList ++ "VERSION:4.0\n".toList ++
    (v.properties.map Property.display).flatten ++ "END:VCARD\n".toList

/-! ## Helper lemmas: decimal codec round trip -/

lemma ne_of_digit (c x : Char) (h : isDigitChar c = true)
    (hx : isDigitChar x = false) : c ≠ x := fun he => by
  rw [he, hx] at h
  cases h

lemma digitChar_isDigit (n : Nat) : isDigitChar (digitChar n) = true := by
  unfold digitChar
  split_ifs <;> decide

lemma natDigitsAux_all_digit (fuel n : Nat) :
    (natDigitsAux fuel n).all isDigitChar = true := by
  induction fuel generalizing n with
  | zero => rfl
  | succ fuel ih =>
    rw [natDigitsAux]
    split_ifs
    · simp [digitChar_isDigit]
    · simp [List.all_append, ih, digitChar_isDigit]

lemma natDigitsAux_ne_nil (fuel n : Nat) (h : 0 < fuel) :
    natDigitsAux fuel n ≠ [] := by
  cases fuel with
  | zero => exact absurd h (by decide)
  | succ fuel =>
    rw [natDigitsAux]
    split_ifs
    · simp
    · intro hcon
      rcases List.append_eq_nil.mp hcon with ⟨-, h2⟩
      cases h2

lemma digitVal_digitChar (n : Nat) (h : n < 10) :
    digitVal (digitChar n) = n := by
  interval_cases n <;> decide

lemma digitsVal_append_one (l : List Char) (c : Char) :
    digitsVal (l ++ [c]) = digitsVal l * 10 + digitVal c := by
  simp [digitsVal, List.foldl_append]

lemma digitsVal_natDigitsAux (fuel n : Nat) (h : n < fuel) :
    digitsVal (natDigitsAux fuel n) = n := by
  induction fuel generalizing n with
  | zero => exact absurd h (by omega)
  | succ fuel ih =>
    rw [natDigitsAux]
    split_ifs with h10
    · simp [digitsVal, digitVal_digitChar n h10]
    · rw [digitsVal_append_one, ih (n / 10) (by omega),
        digitVal_digitChar (n % 10) (by omega)]
      omega

lemma digitsVal_natDigits (n : Nat) : digitsVal (natDigits n) = n :=
  digitsVal_natDigitsAux (n + 1) n (by omega)

lemma natDigits_all_digit (n : Nat) :
    (natDigits n).all isDigitChar = true := natDigitsAux_all_digit (n + 1) n

lemma natDigits_ne_nil (n : Nat) : natDigits n ≠ [] :=
  natDigitsAux_ne_nil (n + 1) n (by omega)

lemma parseI32_natDigits (n : Nat) (h : (n : Int) ≤ 2147483647) :
    parseI32 (natDigits n) = some (n : Int) := by
  have hall := natDigits_all_digit n
  have hne := natDigits_ne_nil n
  obtain ⟨c, l, hcl⟩ : ∃ c l, natDigits n = c :: l := by
    cases hd : natDigits n with
    | nil => exact absurd hd hne
    | cons c l => exact ⟨c, l, rfl⟩
  have hall2 : isDigitChar c = true ∧ l.all isDigitChar = true := by
    rw [hcl] at hall
    simpa [List.all_cons, Bool.and_eq_true] using hall
  have hplus : c ≠ '+' := ne_of_digit c '+' hall2.1 (by decide)
  have hminus : c ≠ '-' := ne_of_digit c '-' hall2.1 (by decide)
  rw [hcl, parseI32, if_neg hplus, if_neg hminus, parseI32Core]
  rw [if_pos ⟨by simp, by rw [← hcl]; exact hall⟩]
  have hval : digitsVal (c :: l) = n := by
    rw [← hcl]
    exact digitsVal_natDigits n
  rw [hval]
  rw [if_pos ⟨by omega, by omega⟩]
  simp

/-! ## Helper lemmas: running the parser combinators -/

lemma bind_ok {α β : Type} {p : Parse α} {f : α → Parse β} {i i2 : List Char}
    {a : α} (h : p i = .ok (i2, a)) : (p >>= f) i = f a i2 := by
  show pbind p f i = f a i2
  rw [pbind, h]

lemma bind_err {α β : Type} {p : Parse α} {f : α → Parse β} {i : List Char}
    {e : VcardError} (h : p i = .error e) : (p >>= f) i = .error e := by
  show pbind p f i = .error e
  rw [pbind, h]

lemma pure_run {α : Type} (a : α) (i : List Char) :
    (pure a : Parse α) i = .ok (i, a) := rfl

lemma pcontext_ok {α : Type} {p : Parse α} {i : List Char}
    {r : List Char × α} (n : String) (h : p i = .ok r) :
    pcontext n p i = .ok r := by
  simp [pcontext, h]

lemma ptakeWhile_all (p : Char → Bool) (l : List Char)
    (h : l.all p = true) : ptakeWhile p l = .ok ([], l) := by
  have hmem : ∀ x ∈ l, p x := by
    intro x hx
    exact List.all_eq_true.mp h x hx
  have h1 : List.takeWhile p l = l := List.takeWhile_eq_self_iff.mpr hmem
  have h2 : List.dropWhile p l = [] := List.dropWhile_eq_nil_iff.mpr hmem
  rw [ptakeWhile, h1, h2]

lemma ptagNoCase_head_ne (c : Char) (s2 : List Char) (d : Char)
    (i2 : List Char) (h : lowerChar d ≠ lowerChar c) :
    ptagNoCase (c :: s2) (d :: i2) = .error (fromErrorKind (d :: i2)) := by
  rw [ptagNoCase]
  rw [if_neg]
  intro hcon
  apply h
  have h1 := hcon.1
  simp only [List.take, List.map] at h1
  exact (List.cons.injEq _ _ _ _ ▸ h1).1

lemma palt_cons2_err {α : Type} {p q : Parse α} {ps : List (Parse α)}
    {i : List Char} {e : VcardError} (h : p i = .error e) :
    palt (p :: q :: ps) i = palt (q :: ps) i := by
  rw [palt]
  · simp only [h]
  · intro hx
    cases hx

lemma ptag_single (c : Char) (rest : List Char) :
    ptag [c] (c :: rest) = .ok (rest, [c]) := by
  simp [ptag, List.isPrefixOf]

lemma ptagNoCase_exact (s i2 : List Char) :
    ptagNoCase s (s ++ i2) = .ok (i2, s) := by
  rw [ptagNoCase]
  simp [List.take_left, List.drop_left]

lemma isSafeChar_of_digit (c : Char) (h : isDigitChar c = true) :
    isSafeChar c = true := by
  have h1 : c ≠ '\n' := ne_of_digit c _ h (by decide)
  have h2 : c ≠ '\r' := ne_of_digit c _ h (by decide)
  have h3 : c ≠ '\t' := ne_of_digit c _ h (by decide)
  have h4 : c ≠ '"' := ne_of_digit c _ h (by decide)
  have h5 : c ≠ ';' := ne_of_digit c _ h (by decide)
  have h6 : c ≠ ':' := ne_of_digit c _ h (by decide)
  simp [isSafeChar, h1, h2, h3, h4, h5, h6]

lemma all_safe_of_all_digit (l : List Char) (h : l.all isDigitChar = true) :
    l.all isSafeChar = true := by
  rw [List.all_eq_true] at h ⊢
  exact fun x hx => isSafeChar_of_digit x (h x hx)

lemma splitOnChar_no_sep (sep : Char) (l : List Char)
    (h : ∀ c ∈ l, c ≠ sep) : splitOnChar sep l = [l] := by
  induction l with
  | nil => rfl
  | cons c r ih =>
    rw [splitOnChar, if_neg (h c (List.mem_cons_self c r)),
      ih (fun x hx => h x (List.mem_cons_of_mem c hx))]

lemma splitOnceChar_no_sep (sep : Char) (l : List Char)
    (h : ∀ c ∈ l, c ≠ sep) : splitOnceChar sep l = none := by
  induction l with
  | nil => rfl
  | cons c r ih =>
    rw [splitOnceChar, if_neg (h c (List.mem_cons_self c r)),
      ih (fun x hx => h x (List.mem_cons_of_mem c hx))]
    rfl

lemma pidTryFrom_digits (m : Nat) (h : (m : Int) ≤ 2147483647) :
    pidTryFrom (natDigits m) = .ok [((m : Int), none)] := by
  have hall := natDigits_all_digit m
  have hsplit : splitOnChar ';' (natDigits m) = [natDigits m] :=
    splitOnChar_no_sep ';' _ (fun c hc =>
      ne_of_digit c _ (List.all_eq_true.mp hall c hc) (by decide))
  have honce : splitOnceChar '.' (natDigits m) = none :=
    splitOnceChar_no_sep '.' _ (fun c hc =>
      ne_of_digit c _ (List.all_eq_true.mp hall c hc) (by decide))
  rw [pidTryFrom, hsplit]
  simp only [List.foldl, honce, parseI32_natDigits m h]
  rw [if_pos (by simp)]
  rfl

lemma palt_cons2_ok {α : Type} {p q : Parse α} {ps : List (Parse α)}
    {i : List Char} {r : List Char × α} (h : p i = .ok r) :
    palt (p :: q :: ps) i = .ok r := by
  rw [palt]
  · simp only [h]
  · intro hx
    cases hx

lemma palt_one {α : Type} (p : Parse α) : palt [p] = p := rfl

lemma pcontext_err_parse {α : Type} {p : Parse α} {i : List Char}
    {v : List String} (n : String) (h : p i = .error (.ParseError v)) :
    pcontext n p i = .error (.ParseError (v ++ [n])) := by
  simp [pcontext, h]

lemma pchar_ne {c d : Char} (l : List Char) (h : d ≠ c) :
    pchar c (d :: l) = .error (fromErrorKind (d :: l)) := by
  rw [pchar]
  simp [h]

lemma precognize_err {α : Type} {p : Parse α} {i : List Char}
    {e : VcardError} (h : p i = .error e) : precognize p i = .error e := by
  simp [precognize, h]

lemma ptagNoCase_fail {s i : List Char} (hs : s ≠ []) (hi : i ≠ [])
    (h : lowerChar i.headI ≠ lowerChar s.headI) :
    ptagNoCase s i = .error (fromErrorKind i) := by
  cases s with
  | nil => exact absurd rfl hs
  | cons c s2 =>
    cases i with
    | nil => exact absurd rfl hi
    | cons d i2 => exact ptagNoCase_head_ne c s2 d i2 h

lemma valueSafe_digits (l : List Char) (h : l.all isDigitChar = true) :
    valueSafe l = .ok ([], l) :=
  pcontext_ok _ (ptakeWhile_all _ _ (all_safe_of_all_digit l h))

lemma valueQsafe_nonquote (c : Char) (l : List Char) (h : c ≠ '"') :
    valueQsafe (c :: l) =
      .error (.ParseError ([String.mk (c :: l)] ++ ["VALUE_QSAFE"])) :=
  pcontext_err_parse "VALUE_QSAFE" (precognize_err (bind_err (pchar_ne l h)))

lemma parameterValueP_digits (c : Char) (l : List Char)
    (h : (c :: l).all isDigitChar = true) :
    parameterValueP (c :: l) = .ok ([], c :: l) := by
  have hc : isDigitChar c = true := by
    simp [List.all_cons] at h
    exact h.1
  rw [parameterValueP]
  apply pcontext_ok
  rw [palt_cons2_err (valueQsafe_nonquote c l (ne_of_digit c _ hc (by decide)))]
  rw [palt_one]
  exact valueSafe_digits _ h

lemma parameterNameP_pid (rest : List Char) :
    parameterNameP ('P' :: 'I' :: 'D' :: rest) =
      .ok (rest, "PID".toList) := by
  have hf0 : ptagNoCase "ALTID".toList ('P' :: 'I' :: 'D' :: rest) =
      .error (fromErrorKind ('P' :: 'I' :: 'D' :: rest)) :=
    ptagNoCase_head_ne 'A' "LTID".toList 'P' ('I' :: 'D' :: rest) (by decide)
  have hf1 : ptagNoCase "CALSCALE".toList ('P' :: 'I' :: 'D' :: rest) =
      .error (fromErrorKind ('P' :: 'I' :: 'D' :: rest)) :=
    ptagNoCase_head_ne 'C' "ALSCALE".toList 'P' ('I' :: 'D' :: rest) (by decide)
  have hf2 : ptagNoCase "CC".toList ('P' :: 'I' :: 'D' :: rest) =
      .error (fromErrorKind ('P' :: 'I' :: 'D' :: rest)) :=
    ptagNoCase_head_ne 'C' "C".toList 'P' ('I' :: 'D' :: rest) (by decide)
  have hf3 : ptagNoCase "GEO".toList ('P' :: 'I' :: 'D' :: rest) =
      .error (fromErrorKind ('P' :: 'I' :: 'D' :: rest)) :=
    ptagNoCase_head_ne 'G' "EO".toList 'P' ('I' :: 'D' :: rest) (by decide)
  have hf4 : ptagNoCase "INDEX".toList ('P' :: 'I' :: 'D' :: rest) =
      .error (fromErrorKind ('P' :: 'I' :: 'D' :: rest)) :=
    ptagNoCase_head_ne 'I' "NDEX".toList 'P' ('I' :: 'D' :: rest) (by decide)
  have hf5 : ptagNoCase "LABEL".toList ('P' :: 'I' :: 'D' :: rest) =
      .error (fromErrorKind ('P' :: 'I' :: 'D' :: rest)) :=
    ptagNoCase_head_ne 'L' "ABEL".toList 'P' ('I' :: 'D' :: rest) (by decide)
  have hf6 : ptagNoCase "LANGUAGE".toList ('P' :: 'I' :: 'D' :: rest) =
      .error (fromErrorKind ('P' :: 'I' :: 'D' :: rest)) :=
    ptagNoCase_head_ne 'L' "ANGUAGE".toList 'P' ('I' :: 'D' :: rest) (by decide)
  have hf7 : ptagNoCase "LEVEL".toList ('P' :: 'I' :: 'D' :: rest) =
      .error (fromErrorKind ('P' :: 'I' :: 'D' :: rest)) :=
    ptagNoCase_head_ne 'L' "EVEL".toList 'P' ('I' :: 'D' :: rest) (by decide)
  have hf8 : ptagNoCase "MEDIATYPE".toList ('P' :: 'I' :: 'D' :: rest) =
      .error (fromErrorKind ('P' :: 'I' :: 'D' :: rest)) :=
    ptagNoCase_head_ne 'M' "EDIATYPE".toList 'P' ('I' :: 'D' :: rest) (by decide)
  rw [parameterNameP]
  apply pcontext_ok
  rw [palt_cons2_err hf0]
  rw [palt_cons2_err hf1]
  rw [palt_cons2_err hf2]
  rw [palt_cons2_err hf3]
  rw [palt_cons2_err hf4]
  rw [palt_cons2_err hf5]
  rw [palt_cons2_err hf6]
  rw [palt_cons2_err hf7]
  rw [palt_cons2_err hf8]
  exact palt_cons2_ok (ptagNoCase_exact "PID".toList rest)

lemma pidAutoParam (m : Nat) (h : (m : Int) ≤ 2147483647) :
    Parameter.tryFromStr (';' :: ("PID=".toList ++ natDigits m)) =
      .ok ⟨false, "PID".toList, .pid [((m : Int), none)]⟩ := by
  have hall := natDigits_all_digit m
  obtain ⟨c, l, hcl⟩ : ∃ c l, natDigits m = c :: l := by
    cases hd : natDigits m with
    | nil => exact absurd hd (natDigits_ne_nil m)
    | cons c l => exact ⟨c, l, rfl⟩
  have hsemi : semicolonD (';' :: ("PID=".toList ++ natDigits m)) =
      .ok ("PID=".toList ++ natDigits m, [';']) :=
    pcontext_ok _ (ptag_single ';' _)
  have hname : parameterNameP ("PID=".toList ++ natDigits m) =
      .ok ('=' :: natDigits m, "PID".toList) :=
    parameterNameP_pid ('=' :: natDigits m)
  have heq : equalsD ('=' :: natDigits m) = .ok (natDigits m, ['=']) :=
    pcontext_ok _ (ptag_single '=' _)
  have hvalue : parameterValueP (natDigits m) = .ok ([], natDigits m) := by
    rw [hcl]
    exact parameterValueP_digits c l (hcl ▸ hall)
  have hrun : parameterP (';' :: ("PID=".toList ++ natDigits m)) =
      .ok ([], ("PID".toList, natDigits m)) := by
    rw [parameterP]
    apply pcontext_ok
    rw [bind_ok hsemi, bind_ok hname, bind_ok heq, bind_ok hvalue]
    rfl
  rw [Parameter.tryFromStr, hrun]
  show Parameter.tryFromPair "PID".toList (natDigits m) = _
  rw [Parameter.tryFromPair]
  rw [if_pos (by decide)]
  rw [pidTryFrom_digits m h]

lemma findIdxQ_none {α : Type} (p : α → Bool) (l : List α)
    (h : ∀ a ∈ l, p a = false) : l.findIdx? p = none := by
  induction l with
  | nil => rfl
  | cons a r ih =>
    rw [List.findIdx?_cons, h a (List.mem_cons_self a r)]
    simp [ih (fun x hx => h x (List.mem_cons_of_mem a hx))]




lemma propertyMatches_cpm (a b : Property)
    (h : a.name = "CLIENTPIDMAP".toList) : propertyMatches a b = false := by
  rw [propertyMatches, if_pos h]

lemma propertyMatches_ne_name (a b : Property)
    (h1 : a.name ≠ "CLIENTPIDMAP".toList) (h2 : a.name ≠ b.name) :
    propertyMatches a b = false := by
  rw [propertyMatches, if_neg h1, if_pos h2]

lemma propertyMatches_single (a b : Property)
    (h1 : a.name ≠ "CLIENTPIDMAP".toList) (hn : a.name = b.name)
    (hs : a.card = Card.single) : propertyMatches a b = true := by
  rw [propertyMatches, if_neg h1, if_neg (fun hc => hc hn),
    if_pos ⟨hs, hn⟩]

lemma propertyMatches_multiple (a b : Property)
    (h1 : a.name ≠ "CLIENTPIDMAP".toList) (hn : a.name = b.name)
    (hm : a.card = Card.multiple) :
    propertyMatches a b =
      (match pidsGet a, pidsGet b with
        | some pa, some pb => pa.any (fun x => pb.any (fun y => x = y))
        | _, _ => false) := by
  have hns : ¬(a.card = Card.single ∧ a.name = b.name) := by
    intro hq
    rw [hq.1] at hm
    exact absurd hm (by decide)
  rw [propertyMatches, if_neg h1, if_neg (fun hc => hc hn), if_neg hns,
    if_pos ⟨hm, hn⟩]

lemma pidless_matches_none (p q : Property) (hm : p.card = Card.multiple)
    (hc : p.name ≠ "CLIENTPIDMAP".toList) (hp : pidsGet p = none) :
    propertyMatches p q = false := by
  by_cases hn : p.name = q.name
  · rw [propertyMatches_multiple p q hc hn hm, hp]
  · exact propertyMatches_ne_name p q hc hn

lemma getPropertyIndex_pidless (v : Vcard) (p : Property)
    (hm : p.card = Card.multiple) (hc : p.name ≠ "CLIENTPIDMAP".toList)
    (hp : pidsGet p = none) : v.getPropertyIndex p = none := by
  rw [Vcard.getPropertyIndex]
  exact findIdxQ_none _ _ (fun q _ => pidless_matches_none p q hm hc hp)

lemma setProperty_autoPid_noclient (v : Vcard) (p : Property)
    (hm : p.card = Card.multiple) (hc : p.name ≠ "CLIENTPIDMAP".toList)
    (ha : p.allowed.contains "PID".toList = true) (hp : pidsGet p = none)
    (hcl : v.getClientPidMap = none)
    (hbound : (((v.getPropertiesByName p.name).length + 1 : Nat) : Int) ≤
      2147483647) :
    (v.setProperty p).map Prod.fst =
      .ok { p with parameters := p.parameters ++
        [⟨false, "PID".toList,
          .pid [((((v.getPropertiesByName p.name).length + 1 : Nat) : Int),
            none)]⟩] } := by
  have hidx : v.getPropertyIndex p = none :=
    getPropertyIndex_pidless v p hm hc hp
  have hparam := pidAutoParam ((v.getPropertiesByName p.name).length + 1)
    hbound
  set pidParam : Parameter :=
    ⟨false, "PID".toList,
      .pid [((((v.getPropertiesByName p.name).length + 1 : Nat) : Int),
        none)]⟩ with hpidParam
  set p2 : Property := { p with parameters := p.parameters ++ [pidParam] }
    with hP2
  have hadd : addParameter p pidParam = .ok p2 := by
    rw [addParameter, if_neg]
    intro hq
    rw [ha] at hq
    exact absurd rfl hq.1
  rw [Vcard.setProperty]
  simp only [if_pos (And.intro hm (And.intro hc ha)), if_pos hidx, hcl,
    hparam, hadd]
  cases hidx2 : v.getPropertyIndex p2 <;> simp only [hidx2, Except.map]




lemma setProperty_matched_noauto (v : Vcard) (p : Property) (i : Nat)
    (hidx : v.getPropertyIndex p = some i) :
    (v.setProperty p).map Prod.fst = .ok p := by
  rw [Vcard.setProperty]
  by_cases hcond : (p.card = Card.multiple ∧
      p.name ≠ "CLIENTPIDMAP".toList ∧
      (p.allowed.contains "PID".toList : Prop))
  · simp only [if_pos hcond, hidx]
    rw [if_neg (by simp)]
    simp only [hidx, Except.map]
  · simp only [if_neg hcond, hidx, Except.map]

lemma setProperty_nocond_noauto (v : Vcard) (p : Property)
    (hcond : ¬(p.card = Card.multiple ∧
      p.name ≠ "CLIENTPIDMAP".toList ∧
      (p.allowed.contains "PID".toList : Prop))) :
    (v.setProperty p).map Prod.fst = .ok p := by
  rw [Vcard.setProperty]
  simp only [if_neg hcond]
  cases hidx : v.getPropertyIndex p <;> simp only [hidx, Except.map]

lemma ptakeWhile_append_stop (p : Char → Bool) (a : List Char) (c : Char)
    (r : List Char) (ha : a.all p = true) (hc : p c = false) :
    ptakeWhile p (a ++ c :: r) = .ok (c :: r, a) := by
  induction a with
  | nil =>
    rw [ptakeWhile]
    simp [List.takeWhile_cons, List.dropWhile_cons, hc]
  | cons d a2 ih =>
    have hall : p d = true ∧ a2.all p = true := by
      simpa [List.all_cons, Bool.and_eq_true] using ha
    have ih2 := ih hall.2
    rw [ptakeWhile] at ih2 ⊢
    simp only [List.cons_append, List.takeWhile_cons, List.dropWhile_cons,
      hall.1] at ih2 ⊢
    simp only [if_true]
    have h1 : List.dropWhile p (a2 ++ c :: r) = c :: r := by
      have := ih2
      simp only [Except.ok.injEq, Prod.mk.injEq] at this
      exact this.1
    have h2 : List.takeWhile p (a2 ++ c :: r) = a2 := by
      have := ih2
      simp only [Except.ok.injEq, Prod.mk.injEq] at this
      exact this.2
    rw [h1, h2]

lemma ptakeWhile1_append_stop (p : Char → Bool) (a : List Char) (c : Char)
    (r : List Char) (ha : a.all p = true) (hane : a ≠ [])
    (hc : p c = false) : ptakeWhile1 p (a ++ c :: r) = .ok (c :: r, a) := by
  have h := ptakeWhile_append_stop p a c r ha hc
  rw [ptakeWhile] at h
  simp only [Except.ok.injEq, Prod.mk.injEq] at h
  rw [ptakeWhile1, h.2]
  cases a with
  | nil => exact absurd rfl hane
  | cons d a2 => rw [h.1]

lemma plineEnding_lf (r : List Char) :
    plineEnding ('\n' :: r) = .ok (r, ['\n']) := rfl

lemma popt_ok {α : Type} {p : Parse α} {i : List Char} {r : List Char × α}
    (h : p i = .ok r) : popt p i = .ok (r.1, some r.2) := by
  rw [popt, h]

lemma pmany0Go_stop {α : Type} {p : Parse α} {i : List Char}
    {e : VcardError} (fuel : Nat) (hf : 0 < fuel) (h : p i = .error e) :
    pmany0Go p fuel i = .ok (i, []) := by
  cases fuel with
  | zero => exact absurd hf (by decide)
  | succ fuel => simp only [pmany0Go, h]

lemma pmany0Go_step {α : Type} {p : Parse α} {i i2 i3 : List Char} {x : α}
    {xs : List α} (fuel : Nat) (h : p i = .ok (i2, x))
    (hlt : i2.length < i.length) (hrec : pmany0Go p fuel i2 = .ok (i3, xs)) :
    pmany0Go p (fuel + 1) i = .ok (i3, x :: xs) := by
  simp only [pmany0Go, h, if_pos hlt, hrec]




lemma valueP_single_fold (f1 ws f2 : List Char)
    (h1 : f1.all isValueChar = true) (hwsne : ws ≠ [])
    (hws : ws.all (fun c => c == ' ' || c == '\t') = true)
    (h2 : f2.all isValueChar = true)
    (hf2 : match f2 with
      | [] => True
      | c :: _ => (c == ' ' || c == '\t') = false) :
    valueP (f1 ++ '\n' :: (ws ++ (f2 ++ ['\n']))) =
      .ok (['\n'], (f1, some [f2])) := by
  have hisv : isValueChar '\n' = false := by decide
  have htw : ptakeWhile isValueChar (f1 ++ '\n' :: (ws ++ (f2 ++ ['\n']))) =
      .ok ('\n' :: (ws ++ (f2 ++ ['\n'])), f1) :=
    ptakeWhile_append_stop _ _ _ _ h1 hisv
  have hsp : pspace1 (ws ++ (f2 ++ ['\n'])) = .ok (f2 ++ ['\n'], ws) := by
    cases f2 with
    | nil =>
      exact ptakeWhile1_append_stop _ ws '\n' [] hws hwsne (by decide)
    | cons c f2b =>
      exact ptakeWhile1_append_stop _ ws c (f2b ++ ['\n']) hws hwsne hf2
  have hfold : foldD ('\n' :: (ws ++ (f2 ++ ['\n']))) =
      .ok (f2 ++ ['\n'], ws) := by
    rw [foldD]
    apply pcontext_ok
    rw [bind_ok (plineEnding_lf _), bind_ok hsp]
    rfl
  have htw2 : ptakeWhile isValueChar (f2 ++ ['\n']) = .ok (['\n'], f2) :=
    ptakeWhile_append_stop _ f2 '\n' [] h2 hisv
  have hvf : valueFolded ('\n' :: (ws ++ (f2 ++ ['\n']))) =
      .ok (['\n'], f2) := by
    rw [valueFolded]
    apply pcontext_ok
    rw [bind_ok hfold, bind_ok htw2]
    rfl
  have hvferr : valueFolded ['\n'] =
      .error (.ParseError ["", "DELIMITER_CONCAT", "VALUE_FOLDED"]) := by
    decide
  have hlen : (['\n'] : List Char).length <
      ('\n' :: (ws ++ (f2 ++ ['\n']))).length := by
    simp [List.length_append]
  have hmany : pmany0 valueFolded ('\n' :: (ws ++ (f2 ++ ['\n']))) =
      .ok (['\n'], [f2]) := by
    rw [pmany0]
    apply pmany0Go_step _ hvf hlen
    apply pmany0Go_stop _ _ hvferr
    simp
  rw [valueP]
  apply pcontext_ok
  rw [bind_ok htw, bind_ok (popt_ok hmany)]
  rfl

/-- C1: the RFC 7.1 property matching rules as implemented by
`PartialEq for Property` (src/vcard/property/mod.rs lines 434-485): a
CLIENTPIDMAP on either side never matches; differing names never match;
single-cardinality same-name properties always match; multiple-cardinality
properties that both carry PID parameters match iff their PID pair-sets
share an exact pair, and a `none` client id does not wildcard-match a
`some`. -/
theorem spec_C1_matching_rules (A B : Property) :
    ((A.name = "CLIENTPIDMAP".toList ∨ B.name = "CLIENTPIDMAP".toList) →
      propertyMatches A B = false) ∧
    (A.name ≠ B.name → propertyMatches A B = false) ∧
    (A.name ≠ "CLIENTPIDMAP".toList → A.name = B.name →
      A.card = Card.single → B.card = Card.single →
      propertyMatches A B = true) ∧
    (A.name ≠ "CLIENTPIDMAP".toList → A.name = B.name →
      A.card = Card.multiple → B.card = Card.multiple →
      ∀ pa pb, pidsGet A = some pa → pidsGet B = some pb →
        (propertyMatches A B = true ↔ ∃ x, x ∈ pa ∧ x ∈ pb)) ∧
    (A.name ≠ "CLIENTPIDMAP".toList → A.name = B.name →
      A.card = Card.multiple → B.card = Card.multiple →
      ∀ i c, pidsGet A = some [(i, none)] → pidsGet B = some [(i, some c)] →
        propertyMatches A B = false) := by
  refine ⟨?_, ?_, ?_, ?_, ?_⟩
  · rintro (h | h)
    · exact propertyMatches_cpm A B h
    · by_cases hA : A.name = "CLIENTPIDMAP".toList
      · exact propertyMatches_cpm A B hA
      · exact propertyMatches_ne_name A B hA (fun hn => hA (hn.trans h))
  · intro h
    by_cases hA : A.name = "CLIENTPIDMAP".toList
    · exact propertyMatches_cpm A B hA
    · exact propertyMatches_ne_name A B hA h
  · intro h1 hn hs _
    exact propertyMatches_single A B h1 hn hs
  · intro h1 hn hm _ pa pb hpa hpb
    rw [propertyMatches_multiple A B h1 hn hm, hpa, hpb]
    simp only [List.any_eq_true, decide_eq_true_eq]
    constructor
    · rintro ⟨x, hx, y, hy, hxy⟩
      exact ⟨x, hx, hxy ▸ hy⟩
    · rintro ⟨x, hx1, hx2⟩
      exact ⟨x, hx1, x, hx2, rfl⟩
  · intro h1 hn hm hmb i c hpa hpb
    rw [propertyMatches_multiple A B h1 hn hm, hpa, hpb]
    simp

/-- Witness for `spec_C1_matching_rules`: two LANG properties whose PID
pair-sets share the pair `(1, some 2)` match. -/
theorem spec_C1_witness :
    propertyMatches
      { langDefault with parameters :=
          [⟨false, "PID".toList, .pid [(1, some 2)]⟩] }
      { langDefault with parameters :=
          [⟨false, "PID".toList, .pid [(3, none), (1, some 2)]⟩] } = true :=
  ((spec_C1_matching_rules
      { langDefault with parameters :=
          [⟨false, "PID".toList, .pid [(1, some 2)]⟩] }
      { langDefault with parameters :=
          [⟨false, "PID".toList, .pid [(3, none), (1, some 2)]⟩] }).2.2.2.1
      (by decide) rfl rfl rfl [(1, some 2)] [(3, none), (1, some 2)]
      (by decide) (by decide)).mpr ⟨(1, some 2), by decide, by decide⟩

/-- C9 counterexample: the claim includes the case of identical PID sets
"because both properties carry no PID parameter"; but a PID-less
multiple-cardinality property does not even match itself — `LANG:`, the
default LANG property, is multiple, carries no PID, and
`propertyMatches langDefault langDefault = false`. -/
theorem spec_C9_counterexample :
    langDefault.card = Card.multiple ∧ pidsGet langDefault = none ∧
      propertyMatches langDefault langDefault = false := by
  decide

/-- C9 (amended): property matching is symmetric; same-name
multiple-cardinality properties carrying identical non-empty PID sets match
in both directions; properties with disjoint PID sets match in neither
direction; but when the first property carries no PID parameter at all,
both directions are false even when the other carries none either. -/
theorem spec_C9_matching_symmetry :
    (∀ A B : Property, (A.name = B.name → A.card = B.card) →
      propertyMatches A B = propertyMatches B A) ∧
    (∀ (A B : Property) (pa : List (Int × Option Int)),
      A.name ≠ "CLIENTPIDMAP".toList → A.name = B.name →
      A.card = Card.multiple → B.card = Card.multiple →
      pidsGet A = some pa → pidsGet B = some pa → pa ≠ [] →
      propertyMatches A B = true ∧ propertyMatches B A = true) ∧
    (∀ (A B : Property) (pa pb : List (Int × Option Int)),
      A.name ≠ "CLIENTPIDMAP".toList → A.name = B.name →
      A.card = Card.multiple → B.card = Card.multiple →
      pidsGet A = some pa → pidsGet B = some pb → (∀ x ∈ pa, x ∉ pb) →
      propertyMatches A B = false ∧ propertyMatches B A = false) ∧
    (∀ A B : Property, A.card = Card.multiple → B.card = Card.multiple →
      A.name ≠ "CLIENTPIDMAP".toList → B.name ≠ "CLIENTPIDMAP".toList →
      A.name = B.name → pidsGet A = none →
      propertyMatches A B = false ∧ propertyMatches B A = false) := by
  refine ⟨?_, ?_, ?_, ?_⟩
  · intro A B h
    by_cases hA : A.name = "CLIENTPIDMAP".toList
    · rw [propertyMatches_cpm A B hA]
      by_cases hB : B.name = "CLIENTPIDMAP".toList
      · rw [propertyMatches_cpm B A hB]
      · rw [propertyMatches_ne_name B A hB (fun hn => hB (hn.trans hA))]
    · by_cases hB : B.name = "CLIENTPIDMAP".toList
      · rw [propertyMatches_cpm B A hB,
          propertyMatches_ne_name A B hA (fun hn => hA (hn.trans hB))]
      · by_cases hn : A.name = B.name
        · have hcard := h hn
          cases hcA : A.card with
          | single =>
            have hcB : B.card = Card.single := by rw [← hcard, hcA]
            rw [propertyMatches_single A B hA hn hcA,
              propertyMatches_single B A hB hn.symm hcB]
          | multiple =>
            have hcB : B.card = Card.multiple := by rw [← hcard, hcA]
            rw [propertyMatches_multiple A B hA hn hcA,
              propertyMatches_multiple B A hB hn.symm hcB]
            cases hpa : pidsGet A <;> cases hpb : pidsGet B
            · rfl
            · rfl
            · rfl
            · rename_i pa pb
              apply Bool.eq_iff_iff.mpr
              simp only [List.any_eq_true, decide_eq_true_eq]
              constructor
              · rintro ⟨x, hx, y, hy, hxy⟩
                exact ⟨y, hy, x, hx, hxy.symm⟩
              · rintro ⟨x, hx, y, hy, hxy⟩
                exact ⟨y, hy, x, hx, hxy.symm⟩
        · rw [propertyMatches_ne_name A B hA hn,
            propertyMatches_ne_name B A hB (fun h2 => hn h2.symm)]
  · intro A B pa hA hn hcA hcB hpa hpb hne
    obtain ⟨x, xs, hx⟩ : ∃ x xs, pa = x :: xs := by
      cases pa with
      | nil => exact absurd rfl hne
      | cons x xs => exact ⟨x, xs, rfl⟩
    have hB : B.name ≠ "CLIENTPIDMAP".toList := fun h2 => hA (hn.trans h2)
    constructor
    · rw [propertyMatches_multiple A B hA hn hcA, hpa, hpb]
      simp only [List.any_eq_true, decide_eq_true_eq]
      exact ⟨x, by rw [hx]; exact List.mem_cons_self x xs,
        x, by rw [hx]; exact List.mem_cons_self x xs, rfl⟩
    · rw [propertyMatches_multiple B A hB hn.symm hcB, hpa, hpb]
      simp only [List.any_eq_true, decide_eq_true_eq]
      exact ⟨x, by rw [hx]; exact List.mem_cons_self x xs,
        x, by rw [hx]; exact List.mem_cons_self x xs, rfl⟩
  · intro A B pa pb hA hn hcA hcB hpa hpb hdisj
    have hB : B.name ≠ "CLIENTPIDMAP".toList := fun h2 => hA (hn.trans h2)
    constructor
    · rw [propertyMatches_multiple A B hA hn hcA, hpa, hpb]
      rw [Bool.eq_false_iff]
      intro hcon
      simp only [List.any_eq_true, decide_eq_true_eq] at hcon
      obtain ⟨x, hx, y, hy, hxy⟩ := hcon
      exact hdisj x hx (hxy ▸ hy)
    · rw [propertyMatches_multiple B A hB hn.symm hcB, hpa, hpb]
      rw [Bool.eq_false_iff]
      intro hcon
      simp only [List.any_eq_true, decide_eq_true_eq] at hcon
      obtain ⟨x, hx, y, hy, hxy⟩ := hcon
      exact hdisj y hy (hxy ▸ hx)
  · intro A B hcA hcB hA hB hn hpa
    refine ⟨pidless_matches_none A B hcA hA hpa, ?_⟩
    rw [propertyMatches_multiple B A hB hn.symm hcB, hpa]
    cases pidsGet B <;> rfl

/-- Witness for `spec_C9_matching_symmetry`: two LANG properties sharing
the PID pair `(1, none)` match in both directions. -/
theorem spec_C9_witness :
    propertyMatches
        { langDefault with parameters :=
            [⟨false, "PID".toList, .pid [(1, none)]⟩] }
        { langDefault with parameters :=
            [⟨false, "PID".toList, .pid [(1, none)]⟩] } = true ∧
      propertyMatches
        { langDefault with parameters :=
            [⟨false, "PID".toList, .pid [(1, none)]⟩] }
        { langDefault with parameters :=
            [⟨false, "PID".toList, .pid [(1, none)]⟩] } = true :=
  spec_C9_matching_symmetry.2.1
    { langDefault with parameters :=
        [⟨false, "PID".toList, .pid [(1, none)]⟩] }
    { langDefault with parameters :=
        [⟨false, "PID".toList, .pid [(1, none)]⟩] }
    [(1, none)] (by decide) rfl rfl rfl (by decide) (by decide) (by decide)

/-- C10: a multiple-cardinality non-CLIENTPIDMAP property with no PID
parameter matches nothing, itself included; `remove_property` on such a
property returns `ok (false, unchanged card)` (the FN guard is excluded by
hypothesis, and FN is single-cardinality in this crate); and repeated
`set_property` of the PID-less default LANG property appends rather than
replaces. -/
theorem spec_C10_pidless_no_self_match :
    (∀ p q : Property, p.card = Card.multiple →
      p.name ≠ "CLIENTPIDMAP".toList → pidsGet p = none →
      propertyMatches p p = false ∧ propertyMatches p q = false) ∧
    (∀ (p : Property) (v : Vcard), p.card = Card.multiple →
      p.name ≠ "CLIENTPIDMAP".toList → pidsGet p = none →
      (p.name = "FN".toList → p.card = Card.single) →
      v.removeProperty p = .ok (false, v)) ∧
    ((Vcard.new "John Doe".toList).setProperty langDefault).map
        (fun pr => pr.2.properties.length) = .ok 2 ∧
    (((Vcard.new "John Doe".toList).setProperty langDefault).bind
        (fun pr => pr.2.setProperty langDefault)).map
        (fun pr => pr.2.properties.map (fun q => q.name)) =
      .ok ["FN".toList, "LANG".toList, "LANG".toList] := by
  refine ⟨?_, ?_, by decide, by decide⟩
  · intro p q hm hc hp
    exact ⟨pidless_matches_none p p hm hc hp,
      pidless_matches_none p q hm hc hp⟩
  · intro p v hm hc hp hfn
    have hne : p.name ≠ "FN".toList := by
      intro h2
      rw [hfn h2] at hm
      exact absurd hm (by decide)
    rw [Vcard.removeProperty, if_neg hne,
      getPropertyIndex_pidless v p hm hc hp]

/-- Witness for `spec_C10_pidless_no_self_match`: the default LANG property
does not match itself, and removing it from a fresh card is a no-op
reported as `false`. -/
theorem spec_C10_witness :
    propertyMatches langDefault langDefault = false ∧
      (Vcard.new "John Doe".toList).removeProperty langDefault =
        .ok (false, Vcard.new "John Doe".toList) :=
  ⟨(spec_C10_pidless_no_self_match.1 langDefault langDefault rfl
      (by decide) rfl).1,
    spec_C10_pidless_no_self_match.2.1 langDefault
      (Vcard.new "John Doe".toList) rfl (by decide) rfl (by decide)⟩


/-- The minimal valid card of the spec scenarios. -/
def inputMinimalCard : List Char :=
  "BEGIN:VCARD\nVERSION:4.0\nFN:John Doe\nEND:VCARD\n".toList

/-- The minimal card extended with a PID-less LANG property. -/
def inputLangCard : List Char :=
  "BEGIN:VCARD\nVERSION:4.0\nFN:John Doe\nLANG:en\nEND:VCARD\n".toList

/-- The spec scenario input with a twice-folded N value. -/
def inputFoldedN : List Char :=
  "BEGIN:VCARD\nVERSION:4.0\nFN:John Doe\nN:Doe;\n John\n\t;Jr.;;\nEND:VCARD\n".toList

/-- The spec scenario input whose VERSION value is 3.0. -/
def inputVersion3 : List Char :=
  "BEGIN:VCARD\nVERSION:3.0\nFN:John Doe\nEND:VCARD\n".toList

/-- C2 counterexample: parsing a card with a PID-less LANG property
auto-assigns `PID=1` on the way in, and re-parsing the rendered card
auto-assigns a second `PID=1` parameter (a PID-less multiple-cardinality
property matches nothing, so the upsert treats the re-parsed property as
new), so the round trip is not the identity. -/
theorem spec_C2_counterexample :
    (Vcard.tryFromStr inputLangCard).map
        (fun v => v.properties.map (fun p => p.parameters.map paramDisplay)) =
      .ok [[], [";PID=1".toList]] ∧
    ((Vcard.tryFromStr inputLangCard).bind
        (fun v => Vcard.tryFromStr v.render)).map
        (fun v => v.properties.map (fun p => p.parameters.map paramDisplay)) =
      .ok [[], [";PID=1".toList, ";PID=1".toList]] ∧
    (Vcard.tryFromStr inputLangCard).bind
        (fun v => Vcard.tryFromStr v.render) ≠
      Vcard.tryFromStr inputLangCard := by
  refine ⟨by decide, by decide, by decide⟩

/-- C2 (amended): the parse-render-parse round trip is the identity on the
minimal card (whose only property, FN, is single-cardinality), and the
render of the parse is the input itself; the universal round trip fails as
soon as a multiple-cardinality property is present (see the
counterexample). -/
theorem spec_C2_roundtrip :
    (Vcard.tryFromStr inputMinimalCard).map Vcard.render =
      .ok inputMinimalCard ∧
    (Vcard.tryFromStr inputMinimalCard).bind
        (fun v => Vcard.tryFromStr v.render) =
      Vcard.tryFromStr inputMinimalCard ∧
    (Vcard.tryFromStr inputMinimalCard).isOk = true := by
  refine ⟨by decide, by decide, by decide⟩


/-- C3 counterexample: the claim says a PID is auto-assigned exactly when
the inserted property "carries no PID yet"; but `set_property` tests
whether the property matches an existing one, not whether it carries a
PID, so upserting `LANG;PID=5:en` into a fresh card (which has no LANG at
all) appends a second PID parameter `PID=1` next to the existing
`PID=5`. -/
theorem spec_C3_counterexample :
    ((Property.createFromStr "LANG;PID=5:en\n".toList).bind
        (fun p => (Vcard.new "John Doe".toList).setProperty p)).map
        (fun pr => pr.1.parameters.map paramDisplay) =
      .ok [";PID=5".toList, ";PID=1".toList] := by
  decide

/-- C3 (amended): `set_property` auto-assigns a PID exactly when the
property is multiple-cardinality, not CLIENTPIDMAP, admits a PID
parameter, and matches no existing property (whether it already carries a
PID is irrelevant): without a client map the appended parameter is
`PID=count+1`; a property matching an existing one is returned unchanged,
as is one failing the cardinality/name/allowed test; and the claim's
NICKNAME scenario does hold: on a card with client id `urn:uuid:c1` the
two upserts yield PIDs `1.1` and `2.1` (the client map id is `1`). -/
theorem spec_C3_autoassign :
    (∀ (v : Vcard) (p : Property), p.card = Card.multiple →
      p.name ≠ "CLIENTPIDMAP".toList →
      p.allowed.contains "PID".toList = true → pidsGet p = none →
      v.getClientPidMap = none →
      (((v.getPropertiesByName p.name).length + 1 : Nat) : Int) ≤
        2147483647 →
      (v.setProperty p).map Prod.fst =
        .ok { p with parameters := p.parameters ++
          [⟨false, "PID".toList,
            .pid [((((v.getPropertiesByName p.name).length + 1 : Nat) :
              Int), none)]⟩] }) ∧
    (∀ (v : Vcard) (p : Property) (i : Nat),
      v.getPropertyIndex p = some i →
      (v.setProperty p).map Prod.fst = .ok p) ∧
    (∀ (v : Vcard) (p : Property),
      ¬(p.card = Card.multiple ∧ p.name ≠ "CLIENTPIDMAP".toList ∧
          (p.allowed.contains "PID".toList : Prop)) →
      (v.setProperty p).map Prod.fst = .ok p) ∧
    ((Vcard.tryFromStrWithClient "urn:uuid:c1".toList
        inputMinimalCard).bind (fun v =>
      (Property.createFromStr "NICKNAME:Johnny\n".toList).bind (fun p =>
        (v.setProperty p).bind (fun pr =>
          (Property.createFromStr "NICKNAME:Johnny\n".toList).bind
            (fun q => (pr.2.setProperty q).map (fun pr2 =>
              pr2.2.properties.map (fun r =>
                (r.name, r.parameters.map paramDisplay))))))) =
      .ok [("CLIENTPIDMAP".toList, []), ("FN".toList, []),
        ("NICKNAME".toList, [";PID=1.1".toList]),
        ("NICKNAME".toList, [";PID=2.1".toList])]) := by
  refine ⟨?_, ?_, ?_, by decide⟩
  · intro v p hm hc ha hp hcl hbound
    exact setProperty_autoPid_noclient v p hm hc ha hp hcl hbound
  · intro v p i hidx
    exact setProperty_matched_noauto v p i hidx
  · intro v p hcond
    exact setProperty_nocond_noauto v p hcond

/-- Witness for `spec_C3_autoassign`: upserting the PID-less default LANG
property into a fresh card appends `PID=1`. -/
theorem spec_C3_witness :
    ((Vcard.new "John Doe".toList).setProperty langDefault).map Prod.fst =
      .ok { langDefault with parameters :=
        [⟨false, "PID".toList, .pid [(1, none)]⟩] } :=
  spec_C3_autoassign.1 (Vcard.new "John Doe".toList) langDefault rfl
    (by decide) (by decide) rfl rfl (by decide)


/-- C6 counterexample: the claim says the stripped fold marker is the line
break plus exactly ONE whitespace character, no more; but `fold` is built
on nom `space1` (one or MORE), so folding `A` / two spaces / `B` strips
both spaces and yields `AB`, not `A B` with the second space kept. -/
theorem spec_C6_counterexample :
    valueP "A\n  B\n".toList =
      .ok (['\n'], ("A".toList, some ["B".toList])) := by
  decide

/-- C6 (amended): a value continues when the next physical line starts
with whitespace, but the stripped fold marker is the line break plus the
ENTIRE run of leading spaces and tabs (`fold` = `line_ending` + `space1`,
one or more); the fragments are concatenated before interpretation, and on
the spec scenario input the folded N value unfolds to `Doe;John;Jr.;;`
exactly. -/
theorem spec_C6_line_folding :
    (∀ f1 ws f2 : List Char, f1.all isValueChar = true → ws ≠ [] →
      ws.all (fun c => c == ' ' || c == '\t') = true →
      f2.all isValueChar = true →
      (match f2 with
        | [] => True
        | c :: _ => (c == ' ' || c == '\t') = false) →
      valueP (f1 ++ '\n' :: (ws ++ (f2 ++ ['\n']))) =
        .ok (['\n'], (f1, some [f2]))) ∧
    (vcardP inputFoldedN).map (fun r => r.2.map (fun d =>
        d.2.2.1 ++ (d.2.2.2.getD []).flatten)) =
      .ok ["John Doe".toList, "Doe;John;Jr.;;".toList] := by
  refine ⟨?_, by decide⟩
  intro f1 ws f2 h1 hwsne hws h2 hf2
  cases f2 with
  | nil => exact valueP_single_fold f1 ws [] h1 hwsne hws h2 trivial
  | cons c t => exact valueP_single_fold f1 ws (c :: t) h1 hwsne hws h2 hf2

/-- Witness for `spec_C6_line_folding`: folding with a two-character
whitespace run strips the whole run. -/
theorem spec_C6_witness :
    valueP ("A".toList ++ '\n' :: ([' ', ' '] ++ ("B".toList ++ ['\n']))) =
      .ok (['\n'], ("A".toList, some ["B".toList])) :=
  spec_C6_line_folding.1 "A".toList [' ', ' '] ['B'] (by decide)
    (by decide) (by decide) (by decide)
    (show (('B' == ' ') || ('B' == '\t')) = false by decide)

/-- C7 counterexample: there is no `VersionInvalid` variant in
`VcardError`; parsing a card with `VERSION:3.0` fails with the generic
`ParseError`, whose payload is the nom breadcrumb trail (remaining input,
then the rule names `PROPERTY_VERSION` and `VCARD`). -/
theorem spec_C7_counterexample :
    Vcard.tryFromStr inputVersion3 =
      .error (VcardError.ParseError
        ["3.0\nFN:John Doe\nEND:VCARD\n", "PROPERTY_VERSION", "VCARD"]) := by
  decide

/-- C7 (amended): parsing a card whose VERSION value is not the literal
`4.0` aborts the whole parse; the error is the generic `ParseError`, but
it is distinguishable as a version failure only through its breadcrumb
trail: the innermost rule name (`VcardError::parse_error`) is
`PROPERTY_VERSION`, and any error with that rule name is a `ParseError`,
not a dedicated variant. -/
theorem spec_C7_version_error :
    (Vcard.tryFromStr inputVersion3).isOk = false ∧
    (match Vcard.tryFromStr inputVersion3 with
      | .error e => VcardError.parseErrorRule e
      | .ok _ => "") = "PROPERTY_VERSION" ∧
    (∀ e : VcardError, VcardError.parseErrorRule e = "PROPERTY_VERSION" →
      ∃ v, e = VcardError.ParseError v) := by
  refine ⟨by decide, by decide, ?_⟩
  intro e he
  cases e with
  | ParseError v => exact ⟨v, rfl⟩
  | _ => exact absurd he (by simp [VcardError.parseErrorRule])

/-- Witness for `spec_C7_version_error`: an error whose second breadcrumb
is `PROPERTY_VERSION` is a `ParseError`. -/
theorem spec_C7_witness :
    ∃ v, VcardError.ParseError ["x", "PROPERTY_VERSION", "VCARD"] =
      VcardError.ParseError v :=
  spec_C7_version_error.2.2
    (VcardError.ParseError ["x", "PROPERTY_VERSION", "VCARD"]) rfl

/-- C8 counterexample: `ParameterPrefData::try_from` performs no range
check, so a PREF parameter value of 200 is constructible from the string
`200`. -/
theorem spec_C8_counterexample :
    prefTryFrom "200".toList = .ok (.integer 200) := by
  decide

/-- C8 (amended): `set_value` does enforce the 1..=100 range on integers
(accepting exactly the in-range ones and rejecting the rest with
`ValueInvalid`), but `try_from` accepts any string that parses as an i32,
with no range check, and rejects only unparseable strings; so the
invariant "PREF is always 1-100" does not hold for parameters built by
`try_from` (the constructor used by the parser). -/
theorem spec_C8_pref_range :
    (∀ n : Int, prefSetValue (.integer n) = .ok (.integer n) ↔
      (1 ≤ n ∧ n ≤ 100)) ∧
    (∀ n : Int, (n < 1 ∨ 100 < n) →
      prefSetValue (.integer n) =
        .error (.ValueInvalid (String.mk (Value.integer n).display)
          "PREF")) ∧
    (∀ (s : List Char) (n : Int), parseI32 s = some n →
      prefTryFrom s = .ok (.integer n)) ∧
    (∀ s : List Char, parseI32 s = none →
      prefTryFrom s = .error (.ValueMalformed (String.mk s))) := by
  refine ⟨?_, ?_, ?_, ?_⟩
  · intro n
    simp only [prefSetValue]
    split_ifs with h
    · constructor
      · intro hcon
        exact absurd hcon (by simp)
      · intro hr
        exact ((by omega : False)).elim
    · constructor
      · intro _
        omega
      · intro _
        rfl
  · intro n h
    simp only [prefSetValue]
    rw [if_pos h]
  · intro s n h
    unfold prefTryFrom
    rw [h]
  · intro s h
    unfold prefTryFrom
    rw [h]

/-- Witness for `spec_C8_pref_range`: 50 is accepted by `set_value` and
200 is rejected. -/
theorem spec_C8_witness :
    prefSetValue (.integer 50) = .ok (.integer 50) ∧
      prefSetValue (.integer 200) =
        .error (.ValueInvalid (String.mk (Value.integer 200).display)
          "PREF") :=
  ⟨(spec_C8_pref_range.1 50).mpr (by decide),
    spec_C8_pref_range.2.1 200 (by decide)⟩

end VcardParser
